import Mathlib

/-!
Shallow embedding of `src/Methods/Vectorized_Clustered_KNN.py` (class
`ClusteredKNN`), the clustering-based recommendation engine.

Modelling conventions:
* Machine floats are idealised as exact arithmetic.  Every similarity value
  produced by the code is a cosine similarity `dot u v / (‖u‖ ‖v‖)`, i.e. a
  number of the shape `d / √n` with `d n : ℚ` and `n = ‖u‖² ‖v‖² ≥ 0`.  We
  represent such a value exactly by the pair `⟨d, n⟩` (structure `SqrtRat`)
  and compare two values through the rational key `sign d * d² / n`, which is
  strictly monotone in `d / √n` (squaring is monotone on each sign class and
  the sign classes are ordered); so the comparisons the program performs are
  decided exactly.
* `numpy`/`pandas` tie behaviour that the library leaves unspecified
  (`np.argsort` on equal scores, `pandas.value_counts` on equal counts,
  `sklearn` neighbour order on equal distances) is fixed deterministically:
  stable with respect to index / first-appearance order.
* `heapq.heapify`, `heapq.nlargest` and `sorted` are modelled after CPython:
  `heapify` by its actual sift algorithm (its output order is observable
  here), `nlargest n key` by its documented equivalence
  `sorted(iterable, key=key, reverse=True)[:n]`, and `sorted` with
  `reverse=True` as a stable descending sort.
* The HDBSCAN clusterer is not reimplemented: `generate_user_profiles` is
  parametrised by an arbitrary function `clusterer` from the pairwise
  cosine-similarity matrix of the good vectors to integer labels, exactly the
  interface the code uses (`fit_predict` on the distance matrix; the distance
  matrix `1 - sim` carries the same information as the similarity matrix).
-/

/-! ## Rational vectors and exact cosine-similarity scores -/

/-- Embedding vectors: finite lists of rationals (idealised floats). -/
abbrev Vec := List ℚ

/-- Dot product of two vectors (missing coordinates count as 0,
as both operands always have the catalog dimensionality in the code). -/
def dotQ (u v : Vec) : ℚ := (List.zipWith (· * ·) u v).sum

/-- Coordinatewise sum of two vectors of equal length. -/
def addVec (u v : Vec) : Vec := List.zipWith (· + ·) u v

/-- The zero vector of dimension `d` (`np.zeros(d)`). -/
def zeroVec (d : ℕ) : Vec := List.replicate d 0

/-- Arithmetic mean of a list of vectors (`np.mean(..., axis=0)`).
On the empty list this returns the zero vector of dimension 0; the code only
takes means of nonempty stacks. -/
def meanVec (vs : List Vec) : Vec :=
  match vs with
  | [] => []
  | v :: rest => (rest.foldl addVec v).map (· / (vs.length : ℚ))

/-- An exact representation of a similarity value `d / √n` (`d = dot u v`,
`n = ‖u‖²‖v‖²`).  All scores the program manipulates have this shape. -/
structure SqrtRat where
  d : ℚ
  n : ℚ
deriving DecidableEq, Repr

/-- Order key for `SqrtRat`: `sign d * d² / n` (0 when `n = 0`, matching the
sklearn convention that a zero vector has similarity 0 to everything).
`x ↦ sign x * x²` is strictly monotone, so `key` is strictly monotone in the
real value `d / √n` whenever `n > 0`. -/
def SqrtRat.key (s : SqrtRat) : ℚ :=
  (if s.d < 0 then -(s.d * s.d) else s.d * s.d) / s.n

/-- Exact cosine similarity of two vectors, as a `SqrtRat`
(`sklearn.metrics.pairwise.cosine_similarity` on one pair). -/
def cosineSim (u v : Vec) : SqrtRat := ⟨dotQ u v, dotQ u u * dotQ v v⟩

/-- Floor of a rational, computed by Euclidean division (the denominator is
positive, so the Euclidean quotient is the floor). -/
def ratFloor (q : ℚ) : ℤ := q.num.ediv q.den

/-- Python's `round` on a rational: round half to even (banker's rounding),
as CPython's `round` on floats does. -/
def pyRound (q : ℚ) : ℤ :=
  let f : ℤ := ratFloor q
  let r : ℚ := q - f
  if r < 1/2 then f
  else if (1:ℚ)/2 < r then f + 1
  else if f % 2 = 0 then f else f + 1

/-! ## Stable sorting (Python `sorted`, numpy `argsort` idealisation) -/

/-- Insert `x` into a (descending-by-`ge`) sorted list, before the first
element strictly below it: `ge x y` must mean "`x`'s key ≥ `y`'s key". -/
def insertDescBy (ge : α → α → Bool) (x : α) : List α → List α
  | [] => [x]
  | y :: ys => if ge x y then x :: y :: ys else y :: insertDescBy ge x ys

/-- Stable descending sort (Python `sorted(..., reverse=True)`):
elements with equal keys keep their original relative order. -/
def sortDescBy (ge : α → α → Bool) : List α → List α
  | [] => []
  | x :: xs => insertDescBy ge x (sortDescBy ge xs)

/-- Insert `x` into an (ascending-by-`le`) sorted list, before the first
element it is `le` to. -/
def insertAscBy (le : α → α → Bool) (x : α) : List α → List α
  | [] => [x]
  | y :: ys => if le x y then x :: y :: ys else y :: insertAscBy le x ys

/-- Stable ascending sort. -/
def sortAscBy (le : α → α → Bool) : List α → List α
  | [] => []
  | x :: xs => insertAscBy le x (sortAscBy le xs)

/-- Model of `np.argsort(scores)[::-1]` truncated to `k`: indices of `scores` sorted by
ascending value (ties by ascending index — the stable idealisation of
numpy's unspecified tie order), then reversed, then truncated to `k`. -/
def argsortDescTake (k : ℕ) (scores : List SqrtRat) : List ℕ :=
  ((sortAscBy
      (fun i j => decide ((scores.getD i ⟨0, 0⟩).key ≤ (scores.getD j ⟨0, 0⟩).key))
      (List.range scores.length)).reverse).take k

/-- Worker for `dedupFirst`: keep each element's first occurrence,
`seen` collects the occurrences already kept. -/
def dedupFirstGo [DecidableEq α] (seen : List α) : List α → List α
  | [] => []
  | x :: xs =>
    if x ∈ seen then dedupFirstGo seen xs
    else x :: dedupFirstGo (seen ++ [x]) xs

/-- First-appearance deduplication (`pandas.unique` keeps the order of first
appearance). -/
def dedupFirst [DecidableEq α] (l : List α) : List α := dedupFirstGo [] l

/-! ## CPython `heapq` -/

/-- The inner `while pos > startpos` loop of CPython's `heapq._siftdown`.
`fuel` bounds the iteration count; the parent position `(pos-1)/2` strictly
decreases, so `fuel = pos` always suffices.  `dflt` is the out-of-range
default for list indexing (never hit on the in-range calls the code makes). -/
def siftdownLoop (lt : α → α → Bool) (dflt : α) (startpos : ℕ) :
    ℕ → ℕ → List α → α → List α
  | 0, pos, heap, newitem => heap.set pos newitem
  | fuel + 1, pos, heap, newitem =>
    if startpos < pos then
      let parentpos := (pos - 1) / 2
      let parent := heap.getD parentpos dflt
      if lt newitem parent then
        siftdownLoop lt dflt startpos fuel parentpos (heap.set pos parent) newitem
      else heap.set pos newitem
    else heap.set pos newitem

/-- CPython `heapq._siftdown(heap, startpos, pos)`. -/
def pySiftdown (lt : α → α → Bool) (dflt : α) (heap : List α)
    (startpos pos : ℕ) : List α :=
  siftdownLoop lt dflt startpos pos pos heap (heap.getD pos dflt)

/-- The child-chasing loop of CPython's `heapq._siftup`; returns the final
position together with the shifted heap.  The child position at least doubles
each round, so `fuel = endpos` suffices. -/
def siftupLoop (lt : α → α → Bool) (dflt : α) (endpos : ℕ) :
    ℕ → ℕ → List α → ℕ × List α
  | 0, pos, heap => (pos, heap)
  | fuel + 1, pos, heap =>
    let childpos := 2 * pos + 1
    if childpos < endpos then
      let rightpos := childpos + 1
      let childpos :=
        if rightpos < endpos &&
            !(lt (heap.getD childpos dflt) (heap.getD rightpos dflt)) then
          rightpos
        else childpos
      siftupLoop lt dflt endpos fuel childpos (heap.set pos (heap.getD childpos dflt))
    else (pos, heap)

/-- CPython `heapq._siftup(heap, pos)`. -/
def pySiftup (lt : α → α → Bool) (dflt : α) (heap : List α) (pos : ℕ) : List α :=
  let endpos := heap.length
  let newitem := heap.getD pos dflt
  let r := siftupLoop lt dflt endpos endpos pos heap
  pySiftdown lt dflt (r.2.set r.1 newitem) pos r.1

/-- CPython `heapq.heapify`:
`for i in reversed(range(len(heap) // 2)): _siftup(heap, i)`. -/
def pyHeapify (lt : α → α → Bool) (dflt : α) (heap : List α) : List α :=
  (List.range (heap.length / 2)).reverse.foldl (fun h i => pySiftup lt dflt h i) heap

/-! ## Data model (§3 of the spec, mirroring the pandas frames) -/

/-- A catalog row: `content_id` plus its embedding vector
(`content_df[content_id_column]`, `content_df[content_attribute_column]`). -/
structure Content where
  id : ℤ
  vec : Vec
deriving DecidableEq, Repr

/-- An interaction-log row: `(user_id, content_id, rating)`. -/
structure Interaction where
  user : ℤ
  content : ℤ
  rating : ℤ
deriving DecidableEq, Repr

/-- A user profile as stored in `self.user_profiles[user_id]`:
the good-content rows (in catalog order), the aligned cluster labels, and the
`previous_interactions` exclusion set (a list used only through membership). -/
structure Profile where
  content : List Content
  clusters : List ℤ
  previous : List ℤ
deriving DecidableEq, Repr

/-- A transient candidate `(user_id, content_id, recommendation_score)`. -/
structure Cand where
  user : ℤ
  content : ℤ
  score : SqrtRat
deriving DecidableEq, Repr

/-- A final output row
`(user_id, content_id, recommendation_rank, module_source)`. -/
structure Row where
  user : ℤ
  content : ℤ
  rank : ℕ
  source : String
deriving DecidableEq, Repr

/-- Python `<` on the tuples `(user_id, content_id, score)` that populate the
candidate list: lexicographic, scores compared as real numbers (through the
exact `SqrtRat.key`). -/
def candLt (a b : Cand) : Bool :=
  if a.user ≠ b.user then decide (a.user < b.user)
  else if a.content ≠ b.content then decide (a.content < b.content)
  else decide (a.score.key < b.score.key)

/-- "Score of `a` ≥ score of `b`" — the comparison made (via `key=lambda x: x[2]`)
by `heapq.nlargest` and by `sorted(..., reverse=True)`. -/
def candGe (a b : Cand) : Bool := decide (b.score.key ≤ a.score.key)

/-- Placeholder candidate for out-of-range list indexing in the heap model
(never reached on the in-range accesses the algorithm makes). -/
def candDflt : Cand := ⟨0, 0, ⟨0, 0⟩⟩

/-! ## `generate_recommendations` (lines 38–125 of the source)

The method reads the object state left by `generate_user_profiles`:
`self.user_profiles` (an insertion-ordered dict of profiles) and
`self.cosine_scores` (per-user similarity arrays over the catalog), plus the
catalog `self.content_df` / `self.all_vectors`.  We pass that state
explicitly. -/

/-- The constant `total_recommendations = 50` (hardcoded in `generate_recommendations`). -/
def totalRecommendations : ℕ := 50

/-- The fallback-pool walk shared by the few-interactions path (lines 58–64)
and the supplement loop (lines 94–100): walk `top_indices`, stop as soon as
the candidate list holds `total_recommendations` entries, and append
`(user_id, content_id, cosine_scores[user_id][idx])` for every index whose
content id is not in `previous_interactions`.  Note it does *not* skip
content ids already in `acc`. -/
def poolWalk (u : ℤ) (prev : List ℤ) (cat : List Content)
    (scores : List SqrtRat) (acc : List Cand) : List ℕ → List Cand
  | [] => acc
  | i :: rest =>
    if totalRecommendations ≤ acc.length then acc
    else
      let cid := (cat.getD i ⟨0, []⟩).id
      if cid ∈ prev then poolWalk u prev cat scores acc rest
      else poolWalk u prev cat scores (acc ++ [⟨u, cid, scores.getD i ⟨0, 0⟩⟩]) rest

/-- Model of `pd.Series(user_clusters).value_counts()` without normalisation:
`(label, count)` pairs, counts descending; ties in first-appearance order
(the deterministic idealisation of pandas' unspecified tie order).
The proportions (`normalize=True`) are recovered as `count / total`. -/
def valueCountsDesc (clusters : List ℤ) : List (ℤ × ℕ) :=
  sortDescBy (fun a b => decide (b.2 ≤ a.2))
    ((dedupFirst clusters).map (fun l => (l, clusters.count l)))

/-- The slot count `max(1, int(round(total_recommendations * proportion)))` (line 71). -/
def slotCount (total : ℕ) (p : ℚ) : ℤ := max 1 (pyRound (total * p))

/-- Selection step of the nearest-neighbour query: the index among `idxs`
with maximal cosine similarity to `centroid` (= minimal cosine distance),
earliest index winning ties. -/
def bestNeighbor (vecs : List Vec) (centroid : Vec) (i0 : ℕ) (idxs : List ℕ) : ℕ :=
  idxs.foldl
    (fun b i =>
      if (cosineSim centroid (vecs.getD b [])).key <
          (cosineSim centroid (vecs.getD i [])).key then i else b)
    i0

/-- Remove the first occurrence of `x`. -/
def removeFirst (x : ℕ) : List ℕ → List ℕ
  | [] => []
  | y :: ys => if y = x then ys else y :: removeFirst x ys

/-- Iterated best-neighbour extraction: `k` rounds of best-neighbour extraction from the index pool `idxs`. -/
def kneighborsGo (vecs : List Vec) (centroid : Vec) : ℕ → List ℕ → List ℕ
  | 0, _ => []
  | _ + 1, [] => []
  | k + 1, i :: rest =>
    let b := bestNeighbor vecs centroid i rest
    b :: kneighborsGo vecs centroid k (removeFirst b (i :: rest))

/-- Model of `NearestNeighbors(n_neighbors=k, metric='cosine', algorithm='brute')
.fit(all_vectors).kneighbors([centroid])` (lines 79–82): the `k` catalog
indices nearest to `centroid` in cosine distance, in increasing distance
order (ties by increasing index).  Returns `min k (number of vectors)`
indices; the recommendation score recorded for index `i` is
`1 - distance = cosineSim centroid vecs[i]`. -/
def kneighborsIdx (vecs : List Vec) (centroid : Vec) (k : ℕ) : List ℕ :=
  kneighborsGo vecs centroid k (List.range vecs.length)

/-- The neighbour loop of one cluster (lines 85–91), entered with the
candidate list `acc`: append each neighbour whose content id is not in
`previous_interactions` (score `1 - dist`, i.e. the cosine similarity of the
centroid and the neighbour), and break *after* an append once the global cap
is met.  Note the cap test sits after the append. -/
def clusterNeighborLoop (u : ℤ) (prev : List ℤ) (cat : List Content)
    (centroid : Vec) (acc : List Cand) : List ℕ → List Cand
  | [] => acc
  | i :: rest =>
    let cid := (cat.getD i ⟨0, []⟩).id
    if cid ∈ prev then clusterNeighborLoop u prev cat centroid acc rest
    else
      let acc2 := acc ++ [⟨u, cid, cosineSim centroid ((cat.getD i ⟨0, []⟩).vec)⟩]
      if totalRecommendations ≤ acc2.length then acc2
      else clusterNeighborLoop u prev cat centroid acc2 rest

/-- The embedding vectors of the good rows carrying cluster label `label`
(`user_content[user_clusters == cluster]`, column `content_attribute_column`). -/
def clusterVecs (content : List Content) (clusters : List ℤ) (label : ℤ) : List Vec :=
  ((content.zip clusters).filter (fun pc => pc.2 = label)).map (fun pc => pc.1.vec)

/-- The body of the per-cluster loop (lines 67–91) for one
`(label, count)` entry of `value_counts`, given the candidate list so far:
skip noise (`-1`), compute the slot count from the proportion, the centroid,
query `min(slot, len(all_vectors))` neighbours, and run the neighbour loop. -/
def clusterStep (u : ℤ) (prev : List ℤ) (cat : List Content)
    (content : List Content) (clusters : List ℤ)
    (acc : List Cand) (lc : ℤ × ℕ) : List Cand :=
  if lc.1 = -1 then acc
  else
    let p : ℚ := (lc.2 : ℚ) / (clusters.length : ℚ)
    let slot := slotCount totalRecommendations p
    let centroid := meanVec (clusterVecs content clusters lc.1)
    let k := min slot.toNat cat.length
    let nbrs := kneighborsIdx (cat.map (·.vec)) centroid k
    clusterNeighborLoop u prev cat centroid acc nbrs

/-- Worker for `clusterContribs`: run the cluster loop from candidate list
`acc`, recording what each cluster appends. -/
def clusterContribsGo (u : ℤ) (prev : List ℤ) (cat : List Content)
    (content : List Content) (clusters : List ℤ) (acc : List Cand) :
    List (ℤ × ℕ) → List (List Cand)
  | [] => []
  | lc :: rest =>
    let acc2 := clusterStep u prev cat content clusters acc lc
    acc2.drop acc.length ::
      clusterContribsGo u prev cat content clusters acc2 rest

/-- Per-cluster candidate contributions of the multi-cluster path: entry `j`
is what the `j`-th processed cluster (in `value_counts` order, noise `-1`
processed as an empty contribution) appends to the user's candidate list. -/
def clusterContribs (u : ℤ) (prev : List ℤ) (cat : List Content)
    (content : List Content) (clusters : List ℤ) : List (List Cand) :=
  clusterContribsGo u prev cat content clusters [] (valueCountsDesc clusters)

/-- The whole multi-cluster candidate phase (lines 66–91): fold the cluster
step over the `value_counts` entries. -/
def clusterPhase (u : ℤ) (prev : List ℤ) (cat : List Content)
    (content : List Content) (clusters : List ℤ) : List Cand :=
  (valueCountsDesc clusters).foldl (clusterStep u prev cat content clusters) []

/-- Number of distinct good content ids
(`len(user_content[content_id_column].unique())`, line 56). -/
def distinctIdCount (content : List Content) : ℕ :=
  (dedupFirst (content.map (·.id))).length

/-- Rank assignment: `enumerate(..., start=1)` turned into output rows with
the constant provenance label `"content_based"` (lines 107–120). -/
def assignRanks (r : ℕ) : List Cand → List Row
  | [] => []
  | c :: cs => ⟨c.user, c.content, r, "content_based"⟩ :: assignRanks (r + 1) cs

/-- The final ranking step (lines 102–108): heapify the candidate list
in place (tuple comparisons), take the `total_recommendations` largest by
score (`heapq.nlargest`, i.e. a stable descending sort then truncation),
stably re-sort those by descending score, and enumerate ranks from 1. -/
def rankStep (cands : List Cand) : List Row :=
  assignRanks 1
    (sortDescBy candGe
      ((sortDescBy candGe (pyHeapify candLt candDflt cands)).take totalRecommendations))

/-- All candidates of one user (lines 51–100): the few-interactions path or
the multi-cluster path, then the unconditional supplement walk. -/
def userCands (cat : List Content) (u : ℤ) (p : Profile)
    (scores : List SqrtRat) : List Cand :=
  let topIdx := argsortDescTake 2000 scores
  let pathCands :=
    if distinctIdCount p.content < 5 then
      poolWalk u p.previous cat scores [] topIdx
    else clusterPhase u p.previous cat p.content p.clusters
  poolWalk u p.previous cat scores pathCands topIdx

/-- Output rows of one user: candidates, then the ranking step. -/
def userRows (cat : List Content) (u : ℤ) (p : Profile)
    (scores : List SqrtRat) : List Row :=
  rankStep (userCands cat u p scores)

/-- Model of `generate_recommendations`: iterate the profile dict in insertion order,
emit each user's ranked rows, and concatenate (lines 43–125).  `profiles` is
the insertion-ordered association list behind `self.user_profiles`, `scores`
the one behind `self.cosine_scores`. -/
def generateRecommendations (cat : List Content)
    (profiles : List (ℤ × Profile)) (scores : List (ℤ × List SqrtRat)) : List Row :=
  (profiles.map (fun up =>
    userRows cat up.1 up.2 (((scores.find? (fun s => s.1 = up.1)).map (·.2)).getD []))).flatten

/-! ## `generate_user_profiles` (lines 129–208) and the full pipeline -/

/-- The catalog embedding dimensionality, `self.all_vectors.shape[1]`
(all catalog vectors share it; §3 calls inconsistency a fatal error). -/
def catDim (cat : List Content) : ℕ := ((cat.headD ⟨0, []⟩).vec).length

/-- The positive-interest vector (lines 170–174): the mean of the good
vectors, or `np.zeros(all_vectors.shape[1])` when there are none.  The final
user vector (line 178) equals it. -/
def userVector (dim : ℕ) (goodVecs : List Vec) : Vec :=
  match goodVecs with
  | [] => zeroVec dim
  | _ => meanVec goodVecs

/-- The pairwise cosine-similarity matrix of a list of vectors; the
`cosine_distances` matrix fed to HDBSCAN is `1 -` this, entrywise. -/
def simMatrix (vs : List Vec) : List (List SqrtRat) :=
  vs.map (fun u => vs.map (fun v => cosineSim u v))

/-- An abstract clusterer standing for
`HDBSCAN(min_cluster_size=5, min_samples=3, metric='precomputed',
cluster_selection_method='eom').fit_predict` on the pairwise distance
matrix: any function from that matrix (carried as the similarity matrix) to
integer labels, `-1` denoting noise. -/
abbrev Clusterer := List (List SqrtRat) → List ℤ

/-- The per-user body of the batch loop (lines 157–208): split the user's
interaction rows into good (rating 4 or 5) and negative (rating 1 or 2),
select the good rows of `batch_content`, build the user vector and its
cosine scores against the whole catalog, cluster (singleton labels
`0..n-1` when there are fewer than 5 good rows, else the HDBSCAN labels),
and record `previous_interactions` as the union of good and negative ids.
Returns the stored profile together with the stored score row. -/
def buildUserProfile (clusterer : Clusterer) (cat batchContent : List Content)
    (uInts : List Interaction) : Profile × List SqrtRat :=
  let goodInts := uInts.filter (fun i => i.rating = 4 ∨ i.rating = 5)
  let negInts := uInts.filter (fun i => i.rating = 1 ∨ i.rating = 2)
  let goodContent := batchContent.filter (fun c => c.id ∈ goodInts.map (·.content))
  let goodVecs := goodContent.map (·.vec)
  let uVec := userVector (catDim cat) goodVecs
  let scoreRow := cat.map (fun c => cosineSim uVec c.vec)
  let clusters :=
    if goodContent.length < 5 then (List.range goodContent.length).map Int.ofNat
    else clusterer (simMatrix goodVecs)
  let previous := dedupFirst (goodInts.map (·.content)) ++
    dedupFirst (negInts.map (·.content))
  (⟨goodContent, clusters, previous⟩, scoreRow)

/-- Ascending insertion sort on integers (the sorted iteration order of
`batch_interactions.groupby(user_id_column)`, whose default is
`sort=True`). -/
def sortAscInt (l : List ℤ) : List ℤ := sortAscBy (fun a b => decide (a ≤ b)) l

/-- One batch (lines 149–208): restrict the interaction log to the chunk's
users, restrict the catalog to content referenced by those rows, and build
each grouped user's profile — `groupby` iterates users in ascending order,
each group keeping the log's row order. -/
def processBatch (clusterer : Clusterer) (cat : List Content)
    (ints : List Interaction) (chunk : List ℤ) :
    List (ℤ × Profile) × List (ℤ × List SqrtRat) :=
  let batchInts := ints.filter (fun i => i.user ∈ chunk)
  let batchContent := cat.filter (fun c => c.id ∈ batchInts.map (·.content))
  let users := sortAscInt (dedupFirst (batchInts.map (·.user)))
  (users.map (fun u =>
      (u, (buildUserProfile clusterer cat batchContent
            (batchInts.filter (fun i => i.user = u))).1)),
   users.map (fun u =>
      (u, (buildUserProfile clusterer cat batchContent
            (batchInts.filter (fun i => i.user = u))).2)))

/-- The `while remaining_users > 0` batch loop (lines 142–146): successive
chunks of `batchSize` users.  `fuel` bounds the number of iterations; the
list of pending users shrinks by `min batchSize remaining ≥ 1` per round
whenever `batchSize ≥ 1`, so `fuel = number of users` suffices. -/
def userChunks (batchSize : ℕ) : ℕ → List ℤ → List (List ℤ)
  | 0, _ => []
  | _ + 1, [] => []
  | fuel + 1, users => users.take batchSize :: userChunks batchSize fuel (users.drop batchSize)

/-- Model of `generate_user_profiles(batch_size)`: the users are
`interactions_df[user_id_column].unique()` (first-appearance order), chunked
into batches; the profile and score dicts accumulate in iteration order. -/
def generateUserProfiles (clusterer : Clusterer) (batchSize : ℕ)
    (cat : List Content) (ints : List Interaction) :
    List (ℤ × Profile) × List (ℤ × List SqrtRat) :=
  let users := dedupFirst (ints.map (·.user))
  let chunks := userChunks batchSize users.length users
  ((chunks.map (fun ch => (processBatch clusterer cat ints ch).1)).flatten,
   (chunks.map (fun ch => (processBatch clusterer cat ints ch).2)).flatten)

/-- Model of `get_recommendations` (lines 18–34) with an explicit batch size:
build profiles, then generate recommendations.  `usersTable` is the
`users_df` handed to the constructor; neither method reads it. -/
def getRecommendationsWith (clusterer : Clusterer) (batchSize : ℕ)
    (cat : List Content) (ints : List Interaction) (usersTable : List ℤ) : List Row :=
  let ps := generateUserProfiles clusterer batchSize cat ints
  generateRecommendations cat ps.1 ps.2

/-- Model of `get_recommendations` as called (default `batch_size=20`). -/
def getRecommendations (clusterer : Clusterer) (cat : List Content)
    (ints : List Interaction) (usersTable : List ℤ) : List Row :=
  getRecommendationsWith clusterer 20 cat ints usersTable

/-! ## The spec's description of the ranking step, and concrete inputs -/

/-- The final ranking step as §4.3 of the spec describes it: select the top
`total_recommendations` candidates by descending score with ties broken by
stable preservation of the original candidate insertion order, and assign
dense ranks from 1.  (Stated from the spec's words, for comparison with the
code's `rankStep`.) -/
def specTopKStable (cands : List Cand) : List Row :=
  assignRanks 1 ((sortDescBy candGe cands).take totalRecommendations)

/-- A trivial clusterer instantiation for concrete runs that never reach the
HDBSCAN branch. -/
def exClusterer : Clusterer := fun _ => []

/-- Example A of the spec (§8): four catalog items. -/
def exCatA : List Content := [⟨101, [1, 0]⟩, ⟨102, [0, 1]⟩, ⟨103, [1, 1]⟩, ⟨104, [-1, 0]⟩]

/-- Example A of the spec (§8): user 1 rates 101 and 102 well, 103 badly. -/
def exIntsA : List Interaction := [⟨1, 101, 5⟩, ⟨1, 102, 5⟩, ⟨1, 103, 1⟩]

/-- Catalog for the cap counterexample: a single fresh item 103. -/
def exCatC1 : List Content := [⟨103, [1, 0]⟩]

/-- Profile state for the cap counterexample: 51 good rows in 51 singleton
clusters (labels `0..50`, proportion `1/51` each, so every cluster gets
`max(1, round(50/51)) = 1` slot), all rated items excluded.  Every cluster's
single-neighbour query returns the only catalog item, 103, which is not in
`previous_interactions`, so every cluster appends one candidate — including
the cluster processed after the 50th append reaches the cap.  (The cluster
labels are profile *state*; HDBSCAN's own output is not visible to this model,
and the cap behaviour under scrutiny does not depend on how the labels were
produced.) -/
def exProfC1 : Profile :=
  ⟨[⟨1, [4, 3]⟩, ⟨2, [4, 3]⟩, ⟨3, [4, 3]⟩, ⟨4, [4, 3]⟩, ⟨5, [4, 3]⟩, ⟨6, [4, 3]⟩, ⟨7, [4, 3]⟩, ⟨8, [4, 3]⟩, ⟨9, [4, 3]⟩, ⟨10, [4, 3]⟩, ⟨11, [4, 3]⟩, ⟨12, [4, 3]⟩, ⟨13, [4, 3]⟩, ⟨14, [4, 3]⟩, ⟨15, [4, 3]⟩, ⟨16, [4, 3]⟩, ⟨17, [4, 3]⟩, ⟨18, [4, 3]⟩, ⟨19, [4, 3]⟩, ⟨20, [4, 3]⟩, ⟨21, [4, 3]⟩, ⟨22, [4, 3]⟩, ⟨23, [4, 3]⟩, ⟨24, [4, 3]⟩, ⟨25, [4, 3]⟩, ⟨26, [4, 3]⟩, ⟨27, [4, 3]⟩, ⟨28, [4, 3]⟩, ⟨29, [4, 3]⟩, ⟨30, [4, 3]⟩, ⟨31, [4, 3]⟩, ⟨32, [4, 3]⟩, ⟨33, [4, 3]⟩, ⟨34, [4, 3]⟩, ⟨35, [4, 3]⟩, ⟨36, [4, 3]⟩, ⟨37, [4, 3]⟩, ⟨38, [4, 3]⟩, ⟨39, [4, 3]⟩, ⟨40, [4, 3]⟩, ⟨41, [4, 3]⟩, ⟨42, [4, 3]⟩, ⟨43, [4, 3]⟩, ⟨44, [4, 3]⟩, ⟨45, [4, 3]⟩, ⟨46, [4, 3]⟩, ⟨47, [4, 3]⟩, ⟨48, [4, 3]⟩, ⟨49, [4, 3]⟩, ⟨50, [4, 3]⟩, ⟨51, [4, 3]⟩],
   [0, 1, 2, 3, 4, 5, 6, 7, 8, 9, 10, 11, 12, 13, 14, 15, 16, 17, 18, 19, 20, 21, 22, 23, 24, 25, 26, 27, 28, 29, 30, 31, 32, 33, 34, 35, 36, 37, 38, 39, 40, 41, 42, 43, 44, 45, 46, 47, 48, 49, 50],
   [1, 2, 3, 4, 5, 6, 7, 8, 9, 10, 11, 12, 13, 14, 15, 16, 17, 18, 19, 20, 21, 22, 23, 24, 25, 26, 27, 28, 29, 30, 31, 32, 33, 34, 35, 36, 37, 38, 39, 40, 41, 42, 43, 44, 45, 46, 47, 48, 49, 50, 51]⟩

/-- The one candidate every cluster of the cap counterexample appends:
item 103 with score `cosineSim [4,3] [1,0] = 4/√25`. -/
def cExp : Cand := ⟨9, 103, ⟨4, 25⟩⟩

/-- Two-item, two-user log whose users first appear in descending id order:
batching interacts with the per-batch `groupby` user sort. -/
def exCatB : List Content := [⟨10, [1, 0]⟩, ⟨20, [0, 1]⟩]

/-- Interactions for the batch-size counterexample (user 2 appears first). -/
def exIntsB : List Interaction := [⟨2, 10, 4⟩, ⟨1, 20, 4⟩]

/-- One-item catalog whose only item the only user has already rated:
the user gets zero output rows. -/
def exCatD : List Content := [⟨10, [1, 0]⟩]

/-- The single interaction for the zero-rows example. -/
def exIntsD : List Interaction := [⟨1, 10, 4⟩]

/-- A log whose only user rated the only item negatively: empty good set. -/
def exIntsE : List Interaction := [⟨1, 10, 2⟩]

/-! ## Lemmas: stable sorts -/

theorem mem_insertDescBy {ge : α → α → Bool} {x a : α} {l : List α} :
    a ∈ insertDescBy ge x l ↔ a = x ∨ a ∈ l := by
  induction l with
  | nil => simp [insertDescBy]
  | cons y ys ih =>
    by_cases h : ge x y
    · simp [insertDescBy, h]
    · simp only [insertDescBy, h, Bool.false_eq_true, if_false, List.mem_cons, ih]
      tauto

theorem mem_sortDescBy {ge : α → α → Bool} {a : α} {l : List α} :
    a ∈ sortDescBy ge l ↔ a ∈ l := by
  induction l with
  | nil => simp [sortDescBy]
  | cons x xs ih => simp [sortDescBy, mem_insertDescBy, ih]

theorem length_insertDescBy {ge : α → α → Bool} {x : α} {l : List α} :
    (insertDescBy ge x l).length = l.length + 1 := by
  induction l with
  | nil => simp [insertDescBy]
  | cons y ys ih =>
    by_cases h : ge x y
    · simp [insertDescBy, h]
    · simp [insertDescBy, h, ih]

theorem length_sortDescBy {ge : α → α → Bool} {l : List α} :
    (sortDescBy ge l).length = l.length := by
  induction l with
  | nil => rfl
  | cons x xs ih => simp [sortDescBy, length_insertDescBy, ih]

/-- A list is descending for the boolean comparison `ge` when each adjacent
pair satisfies it. -/
def DescChain (ge : α → α → Bool) (l : List α) : Prop :=
  l.Chain' (fun a b => ge a b = true)

theorem descChain_insertDescBy {ge : α → α → Bool}
    (total : ∀ a b, ge a b = true ∨ ge b a = true) {x : α} {l : List α}
    (h : DescChain ge l) : DescChain ge (insertDescBy ge x l) := by
  induction l with
  | nil => simp [insertDescBy, DescChain]
  | cons y ys ih =>
    by_cases hxy : ge x y
    · rw [insertDescBy, if_pos hxy]
      exact List.chain'_cons.2 ⟨hxy, h⟩
    · rw [DescChain, List.chain'_cons'] at h
      have hys := ih h.2
      have hyx : ge y x = true := by
        rcases total x y with h1 | h1
        · exact absurd h1 hxy
        · exact h1
      rw [insertDescBy]
      simp only [hxy, Bool.false_eq_true, if_false]
      rw [DescChain, List.chain'_cons']
      refine ⟨fun z hz => ?_, hys⟩
      cases ys with
      | nil => simp [insertDescBy] at hz; subst hz; exact hyx
      | cons w ws =>
        rw [insertDescBy] at hz
        by_cases hxw : ge x w
        · simp only [hxw, if_true, List.head?_cons, Option.mem_def,
            Option.some.injEq] at hz
          subst hz; exact hyx
        · simp only [hxw, Bool.false_eq_true, if_false, List.head?_cons,
            Option.mem_def, Option.some.injEq] at hz
          subst hz; exact h.1 w rfl

theorem descChain_sortDescBy {ge : α → α → Bool}
    (total : ∀ a b, ge a b = true ∨ ge b a = true) (l : List α) :
    DescChain ge (sortDescBy ge l) := by
  induction l with
  | nil => simp [sortDescBy, DescChain]
  | cons x xs ih => exact descChain_insertDescBy total ih

theorem sortDescBy_eq_self_of_descChain {ge : α → α → Bool} {l : List α}
    (h : DescChain ge l) : sortDescBy ge l = l := by
  induction l with
  | nil => rfl
  | cons x xs ih =>
    rw [DescChain, List.chain'_cons'] at h
    rw [sortDescBy, ih h.2]
    cases xs with
    | nil => rfl
    | cons y ys =>
      have hxy : ge x y = true := h.1 y rfl
      simp [insertDescBy, hxy]

theorem descChain_take {ge : α → α → Bool} {l : List α}
    (h : DescChain ge l) (n : ℕ) : DescChain ge (l.take n) :=
  List.Chain'.take h n

/-! ## Lemmas: `dedupFirst`, ascending sort, `removeFirst` -/

theorem mem_dedupFirstGo [DecidableEq α] {a : α} {seen l : List α} :
    a ∈ dedupFirstGo seen l ↔ a ∈ l ∧ a ∉ seen := by
  induction l generalizing seen with
  | nil => simp [dedupFirstGo]
  | cons x xs ih =>
    by_cases hx : x ∈ seen
    · rw [dedupFirstGo, if_pos hx, ih]
      constructor
      · rintro ⟨h1, h2⟩; exact ⟨List.mem_cons_of_mem _ h1, h2⟩
      · rintro ⟨h1, h2⟩
        rcases List.mem_cons.1 h1 with rfl | h1
        · exact absurd hx h2
        · exact ⟨h1, h2⟩
    · rw [dedupFirstGo, if_neg hx]
      simp only [List.mem_cons, ih, List.mem_append, List.mem_singleton]
      constructor
      · rintro (rfl | ⟨h1, h2⟩)
        · exact ⟨Or.inl rfl, hx⟩
        · exact ⟨Or.inr h1, fun hs => h2 (Or.inl hs)⟩
      · rintro ⟨rfl | h1, h2⟩
        · exact Or.inl rfl
        · by_cases hax : a = x
          · exact Or.inl hax
          · refine Or.inr ⟨h1, ?_⟩
            rintro (hs | rfl | hs)
            · exact h2 hs
            · exact hax rfl
            · cases hs

theorem mem_dedupFirst [DecidableEq α] {a : α} {l : List α} :
    a ∈ dedupFirst l ↔ a ∈ l := by
  simp [dedupFirst, mem_dedupFirstGo]

theorem nodup_dedupFirstGo [DecidableEq α] (seen l : List α) :
    (dedupFirstGo seen l).Nodup := by
  induction l generalizing seen with
  | nil => simp [dedupFirstGo]
  | cons x xs ih =>
    by_cases hx : x ∈ seen
    · rw [dedupFirstGo, if_pos hx]; exact ih seen
    · rw [dedupFirstGo, if_neg hx]
      refine List.nodup_cons.2 ⟨fun hmem => ?_, ih _⟩
      exact (mem_dedupFirstGo.1 hmem).2 (List.mem_append.2 (Or.inr (List.mem_singleton.2 rfl)))

theorem nodup_dedupFirst [DecidableEq α] (l : List α) : (dedupFirst l).Nodup :=
  nodup_dedupFirstGo [] l

theorem mem_insertAscBy {le : α → α → Bool} {x a : α} {l : List α} :
    a ∈ insertAscBy le x l ↔ a = x ∨ a ∈ l := by
  induction l with
  | nil => simp [insertAscBy]
  | cons y ys ih =>
    by_cases h : le x y
    · simp [insertAscBy, h]
    · simp only [insertAscBy, h, Bool.false_eq_true, if_false, List.mem_cons, ih]
      tauto

theorem mem_sortAscBy {le : α → α → Bool} {a : α} {l : List α} :
    a ∈ sortAscBy le l ↔ a ∈ l := by
  induction l with
  | nil => simp [sortAscBy]
  | cons x xs ih => simp [sortAscBy, mem_insertAscBy, ih]

theorem insertAscBy_perm {le : α → α → Bool} (x : α) (l : List α) :
    (insertAscBy le x l).Perm (x :: l) := by
  induction l with
  | nil => simp [insertAscBy]
  | cons y ys ih =>
    by_cases h : le x y
    · simp [insertAscBy, h]
    · rw [insertAscBy]
      simp only [h, Bool.false_eq_true, if_false]
      exact (ih.cons y).trans (List.Perm.swap x y ys)

theorem sortAscBy_perm {le : α → α → Bool} (l : List α) :
    (sortAscBy le l).Perm l := by
  induction l with
  | nil => rfl
  | cons x xs ih => exact (insertAscBy_perm x _).trans (ih.cons x)

theorem nodup_sortAscBy {le : α → α → Bool} {l : List α} (h : l.Nodup) :
    (sortAscBy le l).Nodup :=
  (sortAscBy_perm l).nodup_iff.2 h

theorem mem_removeFirst {x a : ℕ} {l : List ℕ} (h : a ∈ removeFirst x l) : a ∈ l := by
  induction l with
  | nil => simpa [removeFirst] using h
  | cons y ys ih =>
    rw [removeFirst] at h
    by_cases hy : y = x
    · rw [if_pos hy] at h; exact List.mem_cons_of_mem _ h
    · rw [if_neg hy] at h
      rcases List.mem_cons.1 h with rfl | h
      · exact List.mem_cons_self _ _
      · exact List.mem_cons_of_mem _ (ih h)

theorem length_removeFirst_of_mem {x : ℕ} {l : List ℕ} (h : x ∈ l) :
    (removeFirst x l).length = l.length - 1 := by
  induction l with
  | nil => cases h
  | cons y ys ih =>
    rw [removeFirst]
    by_cases hy : y = x
    · simp [hy]
    · rcases List.mem_cons.1 h with rfl | h
      · exact absurd rfl hy
      · have hpos : 0 < ys.length := List.length_pos.2 (List.ne_nil_of_mem h)
        rw [if_neg hy]
        simp only [List.length_cons, ih h]
        omega

/-! ## Lemmas: the heap model only rearranges and copies elements -/

theorem siftdownLoop_subset {lt : α → α → Bool} {dflt : α} {startpos : ℕ}
    {P : α → Prop} :
    ∀ {fuel pos : ℕ} {heap : List α} {newitem : α},
      pos < heap.length → (∀ z ∈ heap, P z) → P newitem →
      ∀ z ∈ siftdownLoop lt dflt startpos fuel pos heap newitem, P z := by
  intro fuel
  induction fuel with
  | zero =>
    intro pos heap newitem _ hheap hnew z hz
    rcases List.mem_or_eq_of_mem_set hz with h | rfl
    · exact hheap z h
    · exact hnew
  | succ fuel ih =>
    intro pos heap newitem hpos hheap hnew z hz
    rw [siftdownLoop] at hz
    by_cases hs : startpos < pos
    · rw [if_pos hs] at hz
      have hparent : (pos - 1) / 2 < heap.length :=
        lt_of_le_of_lt (le_trans (Nat.div_le_self _ _) (Nat.sub_le _ _)) hpos
      by_cases hc : lt newitem (heap.getD ((pos - 1) / 2) dflt)
      · rw [if_pos hc] at hz
        have hmemp : heap.getD ((pos - 1) / 2) dflt ∈ heap := by
          rw [List.getD_eq_getElem?_getD, List.getElem?_eq_getElem hparent,
            Option.getD_some]
          exact List.getElem_mem _
        refine ih ?_ ?_ hnew z hz
        · simpa using hparent
        · intro w hw
          rcases List.mem_or_eq_of_mem_set hw with h | rfl
          · exact hheap w h
          · exact hheap _ hmemp
      · rw [if_neg hc] at hz
        rcases List.mem_or_eq_of_mem_set hz with h | rfl
        · exact hheap z h
        · exact hnew
    · rw [if_neg hs] at hz
      rcases List.mem_or_eq_of_mem_set hz with h | rfl
      · exact hheap z h
      · exact hnew

theorem siftupLoop_invariant {lt : α → α → Bool} {dflt : α} {endpos : ℕ}
    {P : α → Prop} :
    ∀ {fuel pos : ℕ} {heap : List α},
      endpos ≤ heap.length → pos < endpos → (∀ z ∈ heap, P z) →
      (siftupLoop lt dflt endpos fuel pos heap).1 < endpos ∧
      (siftupLoop lt dflt endpos fuel pos heap).2.length = heap.length ∧
      ∀ z ∈ (siftupLoop lt dflt endpos fuel pos heap).2, P z := by
  intro fuel
  induction fuel with
  | zero =>
    intro pos heap _ hpos hheap
    exact ⟨hpos, rfl, hheap⟩
  | succ fuel ih =>
    intro pos heap hend hpos hheap
    rw [siftupLoop]
    by_cases hc : 2 * pos + 1 < endpos
    · rw [if_pos hc]
      set childpos :=
        if 2 * pos + 1 + 1 < endpos &&
            !(lt (heap.getD (2 * pos + 1) dflt) (heap.getD (2 * pos + 1 + 1) dflt)) then
          2 * pos + 1 + 1
        else 2 * pos + 1 with hchild
      have hcp : childpos < endpos := by
        rw [hchild]
        by_cases hr : 2 * pos + 1 + 1 < endpos &&
            !(lt (heap.getD (2 * pos + 1) dflt) (heap.getD (2 * pos + 1 + 1) dflt))
        · rw [if_pos hr]
          simp only [Bool.and_eq_true, decide_eq_true_eq] at hr
          exact hr.1
        · rw [if_neg hr]; exact hc
      have hcpl : childpos < heap.length := lt_of_lt_of_le hcp hend
      have hmemc : heap.getD childpos dflt ∈ heap := by
        rw [List.getD_eq_getElem?_getD, List.getElem?_eq_getElem hcpl,
          Option.getD_some]
        exact List.getElem_mem _
      have hres := @ih childpos (heap.set pos (heap.getD childpos dflt))
        (by simpa using hend) hcp ?_
      · refine ⟨hres.1, ?_, hres.2.2⟩
        rw [hres.2.1]; simp
      · intro z hz
        rcases List.mem_or_eq_of_mem_set hz with h | rfl
        · exact hheap z h
        · exact hheap _ hmemc
    · rw [if_neg hc]
      exact ⟨hpos, rfl, hheap⟩

theorem pySiftup_subset {lt : α → α → Bool} {dflt : α} {heap : List α}
    {pos : ℕ} {P : α → Prop} (hpos : pos < heap.length)
    (hheap : ∀ z ∈ heap, P z) : ∀ z ∈ pySiftup lt dflt heap pos, P z := by
  intro z hz
  rw [pySiftup, pySiftdown] at hz
  have hmem0 : heap.getD pos dflt ∈ heap := by
    rw [List.getD_eq_getElem?_getD, List.getElem?_eq_getElem hpos, Option.getD_some]
    exact List.getElem_mem _
  have hinv := @siftupLoop_invariant _ lt dflt heap.length P heap.length pos heap
    le_rfl hpos hheap
  set r := siftupLoop lt dflt heap.length heap.length pos heap with hr
  set heap2 := r.2.set r.1 (heap.getD pos dflt) with hheap2
  have hlen2 : heap2.length = heap.length := by
    rw [hheap2, List.length_set, hinv.2.1]
  have h2P : ∀ w ∈ heap2, P w := by
    intro w hw
    rcases List.mem_or_eq_of_mem_set hw with h | rfl
    · exact hinv.2.2 w h
    · exact hheap _ hmem0
  have hr1 : r.1 < heap2.length := by rw [hlen2]; exact hinv.1
  have hnewP : P (heap2.getD r.1 dflt) := by
    apply h2P
    rw [List.getD_eq_getElem?_getD, List.getElem?_eq_getElem hr1, Option.getD_some]
    exact List.getElem_mem _
  exact siftdownLoop_subset hr1 h2P hnewP z hz

theorem length_siftdownLoop {lt : α → α → Bool} {dflt : α} :
    ∀ {fuel startpos pos2 : ℕ} {h2 : List α} {ni : α},
      (siftdownLoop lt dflt startpos fuel pos2 h2 ni).length = h2.length := by
  intro fuel
  induction fuel with
  | zero => intro startpos pos2 h2 ni; simp [siftdownLoop]
  | succ fuel ih =>
    intro startpos pos2 h2 ni
    rw [siftdownLoop]
    by_cases hs : startpos < pos2
    · rw [if_pos hs]
      by_cases hc : lt ni (h2.getD ((pos2 - 1) / 2) dflt)
      · rw [if_pos hc, ih]; simp
      · rw [if_neg hc]; simp
    · rw [if_neg hs]; simp

theorem pySiftup_length {lt : α → α → Bool} {dflt : α} {heap : List α}
    {pos : ℕ} (hpos : pos < heap.length) :
    (pySiftup lt dflt heap pos).length = heap.length := by
  have hinv := @siftupLoop_invariant _ lt dflt heap.length (fun _ => True)
    heap.length pos heap le_rfl hpos (by intro z _; trivial)
  rw [pySiftup, pySiftdown, length_siftdownLoop, List.length_set, hinv.2.1]

theorem pyHeapify_subset {lt : α → α → Bool} {dflt : α} {heap : List α}
    {P : α → Prop} (hheap : ∀ z ∈ heap, P z) :
    ∀ z ∈ pyHeapify lt dflt heap, P z := by
  rw [pyHeapify]
  have main : ∀ (idxs : List ℕ) (h0 : List α),
      h0.length = heap.length → (∀ z ∈ h0, P z) →
      (∀ i ∈ idxs, i < heap.length) →
      ∀ z ∈ idxs.foldl (fun h i => pySiftup lt dflt h i) h0, P z := by
    intro idxs
    induction idxs with
    | nil => intro h0 _ hP _ z hz; exact hP z hz
    | cons i is ih =>
      intro h0 hlen hP hidx z hz
      rw [List.foldl_cons] at hz
      have hi : i < h0.length := by rw [hlen]; exact hidx i (List.mem_cons_self _ _)
      refine ih _ ?_ (pySiftup_subset hi hP) (fun j hj => hidx j (List.mem_cons_of_mem _ hj)) z hz
      rw [pySiftup_length hi, hlen]
  refine main _ heap rfl hheap ?_
  intro i hi
  rw [List.mem_reverse, List.mem_range] at hi
  exact lt_of_lt_of_le hi (Nat.div_le_self _ _)

/-! ## Lemmas: nearest-neighbour extraction -/

theorem bestNeighbor_mem (vecs : List Vec) (centroid : Vec) (i0 : ℕ)
    (idxs : List ℕ) : bestNeighbor vecs centroid i0 idxs ∈ i0 :: idxs := by
  rw [bestNeighbor]
  have main : ∀ (l : List ℕ) (b : ℕ) (S : List ℕ), b ∈ S → (∀ x ∈ l, x ∈ S) →
      l.foldl (fun b i =>
        if (cosineSim centroid (vecs.getD b [])).key <
            (cosineSim centroid (vecs.getD i [])).key then i else b) b ∈ S := by
    intro l
    induction l with
    | nil => intro b S hb _; exact hb
    | cons x xs ih =>
      intro b S hb hl
      rw [List.foldl_cons]
      by_cases hc : (cosineSim centroid (vecs.getD b [])).key <
          (cosineSim centroid (vecs.getD x [])).key
      · rw [if_pos hc]
        exact ih _ _ (hl x (List.mem_cons_self _ _)) (fun y hy => hl y (List.mem_cons_of_mem _ hy))
      · rw [if_neg hc]
        exact ih _ _ hb (fun y hy => hl y (List.mem_cons_of_mem _ hy))
  exact main idxs i0 _ (List.mem_cons_self _ _) (fun y hy => List.mem_cons_of_mem _ hy)

theorem length_kneighborsGo (vecs : List Vec) (centroid : Vec) :
    ∀ (k : ℕ) (idxs : List ℕ), (kneighborsGo vecs centroid k idxs).length = min k idxs.length := by
  intro k
  induction k with
  | zero => intro idxs; simp [kneighborsGo]
  | succ k ih =>
    intro idxs
    cases idxs with
    | nil => simp [kneighborsGo]
    | cons i rest =>
      rw [kneighborsGo]
      have hb : bestNeighbor vecs centroid i rest ∈ i :: rest := bestNeighbor_mem _ _ _ _
      have hlen := length_removeFirst_of_mem hb
      rw [List.length_cons, ih, hlen, List.length_cons]
      omega

/-- The neighbour query returns exactly `min k n` indices: requesting more
neighbours than there are catalog vectors clamps rather than failing. -/
theorem length_kneighborsIdx (vecs : List Vec) (centroid : Vec) (k : ℕ) :
    (kneighborsIdx vecs centroid k).length = min k vecs.length := by
  rw [kneighborsIdx, length_kneighborsGo, List.length_range]

/-! ## Lemmas: rank assignment and the ranking step -/

theorem length_assignRanks (r : ℕ) (l : List Cand) :
    (assignRanks r l).length = l.length := by
  induction l generalizing r with
  | nil => rfl
  | cons c cs ih => rw [assignRanks, List.length_cons, List.length_cons, ih]

theorem map_rank_assignRanks (r : ℕ) (l : List Cand) :
    (assignRanks r l).map (·.rank) = List.range' r l.length := by
  induction l generalizing r with
  | nil => rfl
  | cons c cs ih => rw [assignRanks, List.map_cons, ih, List.length_cons, List.range'_succ]

theorem mem_assignRanks {r : ℕ} {l : List Cand} {row : Row}
    (h : row ∈ assignRanks r l) :
    ∃ c ∈ l, row.user = c.user ∧ row.content = c.content ∧ row.source = "content_based" := by
  induction l generalizing r with
  | nil => cases h
  | cons c cs ih =>
    rw [assignRanks] at h
    rcases List.mem_cons.1 h with rfl | h
    · exact ⟨c, List.mem_cons_self _ _, rfl, rfl, rfl⟩
    · obtain ⟨c', hc', hu, hcnt, hs⟩ := ih h
      exact ⟨c', List.mem_cons_of_mem _ hc', hu, hcnt, hs⟩

theorem candGe_total : ∀ a b : Cand, candGe a b = true ∨ candGe b a = true := by
  intro a b
  rw [candGe, candGe, decide_eq_true_eq, decide_eq_true_eq]
  exact le_total _ _

theorem mem_rankStep {cands : List Cand} {row : Row} (h : row ∈ rankStep cands) :
    ∃ c ∈ cands, row.user = c.user ∧ row.content = c.content ∧
      row.source = "content_based" := by
  rw [rankStep] at h
  obtain ⟨c, hc, hu, hcnt, hs⟩ := mem_assignRanks h
  refine ⟨c, ?_, hu, hcnt, hs⟩
  have h1 : c ∈ (sortDescBy candGe (pyHeapify candLt candDflt cands)).take
      totalRecommendations := mem_sortDescBy.1 hc
  have h2 : c ∈ sortDescBy candGe (pyHeapify candLt candDflt cands) :=
    List.mem_of_mem_take h1
  exact pyHeapify_subset (fun z hz => hz) c (mem_sortDescBy.1 h2)

theorem length_rankStep (cands : List Cand) :
    (rankStep cands).length ≤ totalRecommendations := by
  rw [rankStep, length_assignRanks, length_sortDescBy]
  exact List.length_take_le _ _

theorem map_rank_rankStep (cands : List Cand) :
    (rankStep cands).map (·.rank) = List.range' 1 (rankStep cands).length := by
  rw [rankStep, map_rank_assignRanks, length_assignRanks]

/-! ## Lemmas: the candidate emission loops -/

theorem mem_poolWalk {u : ℤ} {prev : List ℤ} {cat : List Content}
    {scores : List SqrtRat} :
    ∀ {idxs : List ℕ} {acc : List Cand} {c : Cand}, c ∈ poolWalk u prev cat scores acc idxs →
      c ∈ acc ∨ (c.user = u ∧ c.content ∉ prev) := by
  intro idxs
  induction idxs with
  | nil => intro acc c h; exact Or.inl h
  | cons i rest ih =>
    intro acc c h
    rw [poolWalk] at h
    by_cases hfull : totalRecommendations ≤ acc.length
    · rw [if_pos hfull] at h; exact Or.inl h
    · rw [if_neg hfull] at h
      by_cases hprev : (cat.getD i ⟨0, []⟩).id ∈ prev
      · rw [if_pos hprev] at h; exact ih h
      · rw [if_neg hprev] at h
        rcases ih h with hacc | hnew
        · rcases List.mem_append.1 hacc with hacc | hone
          · exact Or.inl hacc
          · rw [List.mem_singleton] at hone
            subst hone
            exact Or.inr ⟨rfl, hprev⟩
        · exact Or.inr hnew

theorem mem_clusterNeighborLoop {u : ℤ} {prev : List ℤ} {cat : List Content}
    {centroid : Vec} :
    ∀ {idxs : List ℕ} {acc : List Cand} {c : Cand},
      c ∈ clusterNeighborLoop u prev cat centroid acc idxs →
      c ∈ acc ∨ (c.user = u ∧ c.content ∉ prev) := by
  intro idxs
  induction idxs with
  | nil => intro acc c h; exact Or.inl h
  | cons i rest ih =>
    intro acc c h
    rw [clusterNeighborLoop] at h
    by_cases hprev : (cat.getD i ⟨0, []⟩).id ∈ prev
    · rw [if_pos hprev] at h; exact ih h
    · rw [if_neg hprev] at h
      by_cases hfull : totalRecommendations ≤
          (acc ++ [(⟨u, (cat.getD i ⟨0, []⟩).id,
            cosineSim centroid ((cat.getD i ⟨0, []⟩).vec)⟩ : Cand)]).length
      · rw [if_pos hfull] at h
        rcases List.mem_append.1 h with hacc | hone
        · exact Or.inl hacc
        · rw [List.mem_singleton] at hone
          subst hone
          exact Or.inr ⟨rfl, hprev⟩
      · rw [if_neg hfull] at h
        rcases ih h with hacc | hnew
        · rcases List.mem_append.1 hacc with hacc | hone
          · exact Or.inl hacc
          · rw [List.mem_singleton] at hone
            subst hone
            exact Or.inr ⟨rfl, hprev⟩
        · exact Or.inr hnew

theorem mem_clusterStep {u : ℤ} {prev : List ℤ} {cat : List Content}
    {content : List Content} {clusters : List ℤ} {acc : List Cand}
    {lc : ℤ × ℕ} {c : Cand} (h : c ∈ clusterStep u prev cat content clusters acc lc) :
    c ∈ acc ∨ (c.user = u ∧ c.content ∉ prev) := by
  rw [clusterStep] at h
  by_cases hn : lc.1 = -1
  · rw [if_pos hn] at h; exact Or.inl h
  · rw [if_neg hn] at h
    exact mem_clusterNeighborLoop h

theorem mem_clusterPhase {u : ℤ} {prev : List ℤ} {cat : List Content}
    {content : List Content} {clusters : List ℤ} {c : Cand}
    (h : c ∈ clusterPhase u prev cat content clusters) :
    c.user = u ∧ c.content ∉ prev := by
  rw [clusterPhase] at h
  have main : ∀ (lcs : List (ℤ × ℕ)) (acc : List Cand),
      (∀ x ∈ acc, x.user = u ∧ x.content ∉ prev) →
      ∀ x ∈ lcs.foldl (clusterStep u prev cat content clusters) acc,
        x.user = u ∧ x.content ∉ prev := by
    intro lcs
    induction lcs with
    | nil => intro acc hacc x hx; exact hacc x hx
    | cons lc rest ih =>
      intro acc hacc x hx
      rw [List.foldl_cons] at hx
      refine ih _ ?_ x hx
      intro y hy
      rcases mem_clusterStep hy with hy2 | hy2
      · exact hacc y hy2
      · exact hy2
  exact main _ [] (by intro x hx; cases hx) c h

theorem mem_userCands {cat : List Content} {u : ℤ} {p : Profile}
    {scores : List SqrtRat} {c : Cand} (h : c ∈ userCands cat u p scores) :
    c.user = u ∧ c.content ∉ p.previous := by
  rw [userCands] at h
  rcases mem_poolWalk h with hpath | hnew
  · by_cases hfew : distinctIdCount p.content < 5
    · rw [if_pos hfew] at hpath
      rcases mem_poolWalk hpath with hnil | hnew2
      · cases hnil
      · exact hnew2
    · rw [if_neg hfew] at hpath
      exact mem_clusterPhase hpath
  · exact hnew

/-- Every output row of one user's ranking carries that user's id, a content
id outside the user's `previous_interactions`, and the constant source tag. -/
theorem mem_userRows {cat : List Content} {u : ℤ} {p : Profile}
    {scores : List SqrtRat} {row : Row} (h : row ∈ userRows cat u p scores) :
    row.user = u ∧ row.content ∉ p.previous ∧ row.source = "content_based" := by
  rw [userRows] at h
  obtain ⟨c, hc, hu, hcnt, hs⟩ := mem_rankStep h
  obtain ⟨hcu, hcp⟩ := mem_userCands hc
  refine ⟨hu.trans hcu, ?_, hs⟩
  rw [hcnt]
  exact hcp

/-! ## Lemmas: the cluster loop only appends, and what happens past the cap -/

theorem clusterNeighborLoop_extends {u : ℤ} {prev : List ℤ} {cat : List Content}
    {centroid : Vec} :
    ∀ {idxs : List ℕ} {acc : List Cand},
      ∃ t, clusterNeighborLoop u prev cat centroid acc idxs = acc ++ t := by
  intro idxs
  induction idxs with
  | nil => intro acc; exact ⟨[], by simp [clusterNeighborLoop]⟩
  | cons i rest ih =>
    intro acc
    rw [clusterNeighborLoop]
    by_cases hprev : (cat.getD i ⟨0, []⟩).id ∈ prev
    · rw [if_pos hprev]; exact ih
    · rw [if_neg hprev]
      by_cases hfull : totalRecommendations ≤
          (acc ++ [(⟨u, (cat.getD i ⟨0, []⟩).id,
            cosineSim centroid ((cat.getD i ⟨0, []⟩).vec)⟩ : Cand)]).length
      · rw [if_pos hfull]
        exact ⟨_, rfl⟩
      · rw [if_neg hfull]
        obtain ⟨t, ht⟩ := @ih (acc ++ [(⟨u, (cat.getD i ⟨0, []⟩).id,
          cosineSim centroid ((cat.getD i ⟨0, []⟩).vec)⟩ : Cand)])
        exact ⟨_, by rw [ht, List.append_assoc]⟩

theorem clusterStep_extends {u : ℤ} {prev : List ℤ} {cat : List Content}
    {content : List Content} {clusters : List ℤ} {acc : List Cand} {lc : ℤ × ℕ} :
    ∃ t, clusterStep u prev cat content clusters acc lc = acc ++ t := by
  rw [clusterStep]
  by_cases hn : lc.1 = -1
  · rw [if_pos hn]; exact ⟨[], by simp⟩
  · rw [if_neg hn]; exact clusterNeighborLoop_extends

theorem clusterNeighborLoop_cap {u : ℤ} {prev : List ℤ} {cat : List Content}
    {centroid : Vec} :
    ∀ {idxs : List ℕ} {acc : List Cand}, totalRecommendations ≤ acc.length →
      (clusterNeighborLoop u prev cat centroid acc idxs).length ≤ acc.length + 1 := by
  intro idxs
  induction idxs with
  | nil => intro acc _; rw [clusterNeighborLoop]; omega
  | cons i rest ih =>
    intro acc hcap
    rw [clusterNeighborLoop]
    by_cases hprev : (cat.getD i ⟨0, []⟩).id ∈ prev
    · rw [if_pos hprev]
      exact le_trans (ih hcap) (by omega)
    · rw [if_neg hprev]
      have hfull : totalRecommendations ≤
          (acc ++ [(⟨u, (cat.getD i ⟨0, []⟩).id,
            cosineSim centroid ((cat.getD i ⟨0, []⟩).vec)⟩ : Cand)]).length := by
        rw [List.length_append, List.length_singleton]
        omega
      rw [if_pos hfull, List.length_append, List.length_singleton]

theorem clusterStep_cap {u : ℤ} {prev : List ℤ} {cat : List Content}
    {content : List Content} {clusters : List ℤ} {acc : List Cand} {lc : ℤ × ℕ}
    (hcap : totalRecommendations ≤ acc.length) :
    (clusterStep u prev cat content clusters acc lc).length ≤ acc.length + 1 := by
  rw [clusterStep]
  by_cases hn : lc.1 = -1
  · rw [if_pos hn]; omega
  · rw [if_neg hn]; exact clusterNeighborLoop_cap hcap

theorem clusterContribsGo_cap {u : ℤ} {prev : List ℤ} {cat : List Content}
    {content : List Content} {clusters : List ℤ} :
    ∀ {lcs : List (ℤ × ℕ)} {acc : List Cand} {j : ℕ},
      totalRecommendations ≤ acc.length +
        (((clusterContribsGo u prev cat content clusters acc lcs).take j).map
          List.length).sum →
      ((clusterContribsGo u prev cat content clusters acc lcs).getD j []).length ≤ 1 := by
  intro lcs
  induction lcs with
  | nil => intro acc j _; simp [clusterContribsGo]
  | cons lc rest ih =>
    intro acc j hcap
    obtain ⟨t, ht⟩ := @clusterStep_extends u prev cat content clusters acc lc
    cases j with
    | zero =>
      rw [List.take_zero] at hcap
      simp only [List.map_nil, List.sum_nil, Nat.add_zero] at hcap
      rw [clusterContribsGo, List.getD_cons_zero, ht, List.drop_append_of_le_length le_rfl]
      simp only [List.drop_length, List.nil_append]
      have hlen := @clusterStep_cap u prev cat content clusters acc lc hcap
      rw [ht, List.length_append] at hlen
      omega
    | succ j =>
      rw [clusterContribsGo, List.getD_cons_succ]
      apply ih
      rw [clusterContribsGo, List.take_succ_cons, List.map_cons, List.sum_cons] at hcap
      have hdrop : (clusterStep u prev cat content clusters acc lc).drop acc.length = t := by
        rw [ht, List.drop_append_of_le_length le_rfl, List.drop_length, List.nil_append]
      rw [hdrop] at hcap
      have hlen2 : (clusterStep u prev cat content clusters acc lc).length =
          acc.length + t.length := by rw [ht, List.length_append]
      omega

/-! ## Lemmas: batch structure of `generate_user_profiles` -/

theorem find?_eq_head_filter (p : α → Bool) (l : List α) :
    l.find? p = (l.filter p).head? := by
  induction l with
  | nil => rfl
  | cons x xs ih =>
    rw [List.find?, List.filter]
    by_cases h : p x
    · rw [h]; simp
    · simp only [Bool.not_eq_true] at h
      rw [h]; simpa using ih

/-- Filtering by `q` first changes nothing when `p` implies `q` on `l`. -/
theorem filter_subsume {p q : α → Bool} (l : List α)
    (h : ∀ x ∈ l, p x = true → q x = true) :
    (l.filter q).filter p = l.filter p := by
  rw [List.filter_filter]
  refine List.filter_congr ?_
  intro x hx
  by_cases hp : p x
  · rw [hp, h x hx hp]; rfl
  · simp only [Bool.not_eq_true] at hp
    rw [hp]; rfl

/-- Restricting the log to a chunk of users and then to one of the chunk's
users is just restricting to that user. -/
theorem uInts_of_batch (ints : List Interaction) (chunk : List ℤ) (u : ℤ)
    (hu : u ∈ chunk) :
    (ints.filter (fun i => i.user ∈ chunk)).filter (fun i => i.user = u) =
      ints.filter (fun i => i.user = u) := by
  apply filter_subsume
  intro i _ hp
  rw [decide_eq_true_eq] at hp
  rw [hp]
  exact decide_eq_true hu

/-- The profile and score row built inside a batch equal the ones built from
the full catalog and the user's own interaction rows: the batch restriction
of the catalog keeps every content id the user's good rows reference. -/
theorem buildUserProfile_batch_eq (clusterer : Clusterer) (cat : List Content)
    (ints : List Interaction) (chunk : List ℤ) (u : ℤ) (hu : u ∈ chunk) :
    buildUserProfile clusterer cat
        (cat.filter (fun c =>
          c.id ∈ (ints.filter (fun i => i.user ∈ chunk)).map (·.content)))
        ((ints.filter (fun i => i.user ∈ chunk)).filter (fun i => i.user = u)) =
      buildUserProfile clusterer cat cat (ints.filter (fun i => i.user = u)) := by
  rw [uInts_of_batch ints chunk u hu]
  simp only [buildUserProfile]
  have hgc : (cat.filter (fun c =>
        c.id ∈ (ints.filter (fun i => i.user ∈ chunk)).map (·.content))).filter
      (fun c => c.id ∈ ((ints.filter (fun i => i.user = u)).filter
        (fun i => i.rating = 4 ∨ i.rating = 5)).map (·.content)) =
      cat.filter (fun c => c.id ∈ ((ints.filter (fun i => i.user = u)).filter
        (fun i => i.rating = 4 ∨ i.rating = 5)).map (·.content)) := by
    apply filter_subsume
    intro c _ hp
    rw [decide_eq_true_eq] at hp
    rw [decide_eq_true_eq]
    obtain ⟨i, hi, hic⟩ := List.mem_map.1 hp
    have hi2 : i ∈ ints.filter (fun i => i.user = u) :=
      List.mem_of_mem_filter hi
    have hiu : i.user = u := by
      have := (List.mem_filter.1 hi2).2
      rwa [decide_eq_true_eq] at this
    refine List.mem_map.2 ⟨i, List.mem_filter.2 ⟨List.mem_of_mem_filter hi2, ?_⟩, hic⟩
    rw [hiu]
    exact decide_eq_true hu
  rw [hgc]

/-- Filtering a keyed map by one key of a duplicate-free key list. -/
theorem filter_map_key {β : Type} (g : ℤ → β) :
    ∀ (users : List ℤ), users.Nodup → ∀ u : ℤ,
      ((users.map (fun v => (v, g v))).filter (fun e => e.1 = u)) =
        if u ∈ users then [(u, g u)] else [] := by
  intro users
  induction users with
  | nil => intro _ u; simp
  | cons v vs ih =>
    intro hnd u
    rw [List.map_cons]
    by_cases hv : v = u
    · subst hv
      rw [List.filter_cons_of_pos (by simp), ih (List.nodup_cons.1 hnd).2 v,
        if_neg (List.nodup_cons.1 hnd).1, if_pos (List.mem_cons_self _ _)]
    · rw [List.filter_cons_of_neg (by simp [hv]), ih (List.nodup_cons.1 hnd).2 u]
      by_cases hvs : u ∈ vs
      · rw [if_pos hvs, if_pos (List.mem_cons_of_mem _ hvs)]
      · rw [if_neg hvs, if_neg (by
          intro hmem
          rcases List.mem_cons.1 hmem with rfl | hmem
          · exact hv rfl
          · exact hvs hmem)]

/-- Membership in a batch's `groupby` key list: the chunk's users that have
interaction rows. -/
theorem mem_batchUsers {ints : List Interaction} {chunk : List ℤ} {u : ℤ} :
    u ∈ sortAscInt (dedupFirst ((ints.filter (fun i => i.user ∈ chunk)).map (·.user))) ↔
      u ∈ chunk ∧ u ∈ ints.map (·.user) := by
  rw [sortAscInt, mem_sortAscBy, mem_dedupFirst]
  constructor
  · intro h
    obtain ⟨i, hi, hiu⟩ := List.mem_map.1 h
    have hch : i.user ∈ chunk := by
      have := (List.mem_filter.1 hi).2
      rwa [decide_eq_true_eq] at this
    subst hiu
    exact ⟨hch, List.mem_map.2 ⟨i, List.mem_of_mem_filter hi, rfl⟩⟩
  · rintro ⟨hch, hint⟩
    obtain ⟨i, hi, hiu⟩ := List.mem_map.1 hint
    refine List.mem_map.2 ⟨i, List.mem_filter.2 ⟨hi, ?_⟩, hiu⟩
    rw [hiu]
    exact decide_eq_true hch

theorem nodup_batchUsers (ints : List Interaction) (chunk : List ℤ) :
    (sortAscInt (dedupFirst ((ints.filter (fun i => i.user ∈ chunk)).map (·.user)))).Nodup :=
  nodup_sortAscBy (nodup_dedupFirst _)

/-- Restricting one batch's stored profiles to a single user id. -/
theorem processBatch_filter_profile (clusterer : Clusterer) (cat : List Content)
    (ints : List Interaction) (chunk : List ℤ) (u : ℤ) :
    (processBatch clusterer cat ints chunk).1.filter (fun e => e.1 = u) =
      if u ∈ chunk ∧ u ∈ ints.map (·.user) then
        [(u, (buildUserProfile clusterer cat cat (ints.filter (fun i => i.user = u))).1)]
      else [] := by
  rw [processBatch]
  rw [filter_map_key _ _ (nodup_batchUsers ints chunk) u]
  by_cases hmem : u ∈ sortAscInt (dedupFirst ((ints.filter (fun i => i.user ∈ chunk)).map (·.user)))
  · have hcond := mem_batchUsers.1 hmem
    rw [if_pos hmem, if_pos hcond,
      congrArg Prod.fst (buildUserProfile_batch_eq clusterer cat ints chunk u hcond.1)]
  · rw [if_neg hmem, if_neg (fun hcond => hmem (mem_batchUsers.2 hcond))]

/-- Restricting one batch's stored score rows to a single user id. -/
theorem processBatch_filter_scores (clusterer : Clusterer) (cat : List Content)
    (ints : List Interaction) (chunk : List ℤ) (u : ℤ) :
    (processBatch clusterer cat ints chunk).2.filter (fun e => e.1 = u) =
      if u ∈ chunk ∧ u ∈ ints.map (·.user) then
        [(u, (buildUserProfile clusterer cat cat (ints.filter (fun i => i.user = u))).2)]
      else [] := by
  rw [processBatch]
  rw [filter_map_key _ _ (nodup_batchUsers ints chunk) u]
  by_cases hmem : u ∈ sortAscInt (dedupFirst ((ints.filter (fun i => i.user ∈ chunk)).map (·.user)))
  · have hcond := mem_batchUsers.1 hmem
    rw [if_pos hmem, if_pos hcond,
      congrArg Prod.snd (buildUserProfile_batch_eq clusterer cat ints chunk u hcond.1)]
  · rw [if_neg hmem, if_neg (fun hcond => hmem (mem_batchUsers.2 hcond))]

/-- Generic chunk decomposition: if each batch's rows restrict to the single
entry `gv` exactly when `u` is in the chunk and satisfies `Q`, then the
concatenation over all chunks restricts to that single entry exactly when `u`
is among the chunked users and satisfies `Q`. -/
theorem chunks_filter_flatten {β : Type} (rows : List ℤ → List (ℤ × β)) (u : ℤ)
    (gv : ℤ × β) (Q : Prop) [Decidable Q]
    (h1 : ∀ ch, (rows ch).filter (fun e => e.1 = u) = if u ∈ ch ∧ Q then [gv] else [])
    (b : ℕ) (hb : 1 ≤ b) :
    ∀ (fuel : ℕ) (users : List ℤ), users.Nodup → users.length ≤ fuel →
      (((userChunks b fuel users).map
        (fun ch => (rows ch).filter (fun e => e.1 = u))).flatten) =
        if u ∈ users ∧ Q then [gv] else [] := by
  intro fuel
  induction fuel with
  | zero =>
    intro users hnd hlen
    have : users = [] := List.eq_nil_of_length_eq_zero (Nat.le_zero.1 hlen)
    subst this
    simp [userChunks]
  | succ fuel ih =>
    intro users hnd hlen
    cases users with
    | nil => simp [userChunks]
    | cons v vs =>
      rw [show userChunks b (fuel + 1) (v :: vs) =
          (v :: vs).take b :: userChunks b fuel ((v :: vs).drop b) from rfl]
      rw [List.map_cons, List.flatten_cons, h1]
      have hdisj : List.Disjoint ((v :: vs).take b) ((v :: vs).drop b) :=
        List.disjoint_take_drop hnd le_rfl
      have hnd2 : ((v :: vs).drop b).Nodup :=
        hnd.sublist (List.drop_sublist b (v :: vs))
      have hlen2 : ((v :: vs).drop b).length ≤ fuel := by
        simp only [List.length_drop, List.length_cons]
        simp only [List.length_cons] at hlen
        omega
      rw [ih _ hnd2 hlen2]
      by_cases hQ : Q
      · by_cases htake : u ∈ (v :: vs).take b
        · have hdrop : u ∉ (v :: vs).drop b := fun hd => hdisj htake hd
          rw [if_pos ⟨htake, hQ⟩, if_neg (fun hc => hdrop hc.1),
            if_pos ⟨List.mem_of_mem_take htake, hQ⟩, List.append_nil]
        · rw [if_neg (fun hc => htake hc.1), List.nil_append]
          by_cases hdrop : u ∈ (v :: vs).drop b
          · rw [if_pos ⟨hdrop, hQ⟩, if_pos ⟨List.mem_of_mem_drop hdrop, hQ⟩]
          · rw [if_neg (fun hc => hdrop hc.1), if_neg (fun hc => by
              rcases hc with ⟨hmem, -⟩
              rw [← List.take_append_drop b (v :: vs)] at hmem
              rcases List.mem_append.1 hmem with h | h
              · exact htake h
              · exact hdrop h)]
      · rw [if_neg (fun hc => hQ hc.2), if_neg (fun hc => hQ hc.2),
          if_neg (fun hc => hQ hc.2), List.append_nil]

/-- The dict `self.user_profiles` restricted to one user id: a single canonically
built entry when the user occurs in the interaction log, nothing otherwise
— independently of the batch size. -/
theorem generateUserProfiles_filter (clusterer : Clusterer) (b : ℕ)
    (hb : 1 ≤ b) (cat : List Content) (ints : List Interaction) (u : ℤ) :
    (generateUserProfiles clusterer b cat ints).1.filter (fun e => e.1 = u) =
      if u ∈ ints.map (·.user) then
        [(u, (buildUserProfile clusterer cat cat (ints.filter (fun i => i.user = u))).1)]
      else [] := by
  rw [generateUserProfiles]
  have hmaps : ((userChunks b (dedupFirst (ints.map (·.user))).length
        (dedupFirst (ints.map (·.user)))).map
      (fun ch => (processBatch clusterer cat ints ch).1)).flatten.filter (fun e => e.1 = u) =
      ((userChunks b (dedupFirst (ints.map (·.user))).length
        (dedupFirst (ints.map (·.user)))).map
      (fun ch => (processBatch clusterer cat ints ch).1.filter (fun e => e.1 = u))).flatten := by
    rw [List.filter_flatten, List.map_map]
    rfl
  rw [hmaps, chunks_filter_flatten _ u _ (u ∈ ints.map (·.user))
    (processBatch_filter_profile clusterer cat ints · u) b hb _ _
    (nodup_dedupFirst _) le_rfl]
  by_cases hint : u ∈ ints.map (·.user)
  · rw [if_pos ⟨mem_dedupFirst.2 hint, hint⟩, if_pos hint]
  · rw [if_neg (fun hc => hint hc.2), if_neg hint]

/-- The dict `self.cosine_scores` restricted to one user id, batch-independently. -/
theorem generateUserScores_filter (clusterer : Clusterer) (b : ℕ)
    (hb : 1 ≤ b) (cat : List Content) (ints : List Interaction) (u : ℤ) :
    (generateUserProfiles clusterer b cat ints).2.filter (fun e => e.1 = u) =
      if u ∈ ints.map (·.user) then
        [(u, (buildUserProfile clusterer cat cat (ints.filter (fun i => i.user = u))).2)]
      else [] := by
  rw [generateUserProfiles]
  have hmaps : ((userChunks b (dedupFirst (ints.map (·.user))).length
        (dedupFirst (ints.map (·.user)))).map
      (fun ch => (processBatch clusterer cat ints ch).2)).flatten.filter (fun e => e.1 = u) =
      ((userChunks b (dedupFirst (ints.map (·.user))).length
        (dedupFirst (ints.map (·.user)))).map
      (fun ch => (processBatch clusterer cat ints ch).2.filter (fun e => e.1 = u))).flatten := by
    rw [List.filter_flatten, List.map_map]
    rfl
  rw [hmaps, chunks_filter_flatten _ u _ (u ∈ ints.map (·.user))
    (processBatch_filter_scores clusterer cat ints · u) b hb _ _
    (nodup_dedupFirst _) le_rfl]
  by_cases hint : u ∈ ints.map (·.user)
  · rw [if_pos ⟨mem_dedupFirst.2 hint, hint⟩, if_pos hint]
  · rw [if_neg (fun hc => hint hc.2), if_neg hint]

/-! ## Lemmas: restricting the output table to one user -/

theorem generateRecommendations_filter (cat : List Content)
    (profiles : List (ℤ × Profile)) (scores : List (ℤ × List SqrtRat)) (u : ℤ) :
    (generateRecommendations cat profiles scores).filter (fun r => r.user = u) =
      ((profiles.filter (fun e => e.1 = u)).map (fun up =>
        userRows cat up.1 up.2
          (((scores.find? (fun s => s.1 = up.1)).map (·.2)).getD []))).flatten := by
  induction profiles with
  | nil => rfl
  | cons vp rest ih =>
    rw [generateRecommendations, List.map_cons, List.flatten_cons, List.filter_append]
    rw [generateRecommendations] at ih
    by_cases hv : vp.1 = u
    · have hall : (userRows cat vp.1 vp.2
          (((scores.find? (fun s => s.1 = vp.1)).map (·.2)).getD [])).filter
            (fun r => r.user = u) =
          userRows cat vp.1 vp.2 (((scores.find? (fun s => s.1 = vp.1)).map (·.2)).getD []) := by
        refine List.filter_eq_self.2 ?_
        intro row hrow
        exact decide_eq_true (by rw [(mem_userRows hrow).1, hv])
      rw [hall, ih, List.filter_cons, if_pos (decide_eq_true hv), List.map_cons,
        List.flatten_cons]
    · have hnone : (userRows cat vp.1 vp.2
          (((scores.find? (fun s => s.1 = vp.1)).map (·.2)).getD [])).filter
            (fun r => r.user = u) = [] := by
        rw [List.filter_eq_nil]
        intro row hrow
        rw [decide_eq_true_eq, (mem_userRows hrow).1]
        exact hv
      rw [hnone, ih, List.filter_cons, if_neg (by rw [decide_eq_true_eq]; exact hv),
        List.nil_append]

theorem generateUserProfiles_users_subset (clusterer : Clusterer) (b : ℕ)
    (cat : List Content) (ints : List Interaction) :
    ∀ e ∈ (generateUserProfiles clusterer b cat ints).1, e.1 ∈ ints.map (·.user) := by
  intro e he
  rw [generateUserProfiles] at he
  rw [List.mem_flatten] at he
  obtain ⟨l, hl, hel⟩ := he
  rw [List.mem_map] at hl
  obtain ⟨ch, hch, rfl⟩ := hl
  simp only [processBatch] at hel
  rw [List.mem_map] at hel
  obtain ⟨v, hv, rfl⟩ := hel
  exact (mem_batchUsers.1 hv).2

/-- The whole pipeline restricted to one user: the canonical per-user rows
when the user occurs in the log, nothing otherwise — for any batch size ≥ 1
and any users table. -/
theorem getRecommendationsWith_filter (clusterer : Clusterer) (b : ℕ)
    (hb : 1 ≤ b) (cat : List Content) (ints : List Interaction)
    (usersTable : List ℤ) (u : ℤ) :
    (getRecommendationsWith clusterer b cat ints usersTable).filter (fun r => r.user = u) =
      if u ∈ ints.map (·.user) then
        userRows cat u
          (buildUserProfile clusterer cat cat (ints.filter (fun i => i.user = u))).1
          (buildUserProfile clusterer cat cat (ints.filter (fun i => i.user = u))).2
      else [] := by
  rw [getRecommendationsWith, generateRecommendations_filter,
    generateUserProfiles_filter clusterer b hb]
  by_cases hint : u ∈ ints.map (·.user)
  · rw [if_pos hint, if_pos hint, List.map_cons, List.map_nil, List.flatten_cons,
      List.flatten_nil, List.append_nil]
    have hscore : ((generateUserProfiles clusterer b cat ints).2.find?
        (fun s => s.1 = u)) =
        some (u, (buildUserProfile clusterer cat cat
          (ints.filter (fun i => i.user = u))).2) := by
      rw [find?_eq_head_filter, generateUserScores_filter clusterer b hb,
        if_pos hint, List.head?_cons]
    simp only [hscore, Option.map_some', Option.getD_some]
  · rw [if_neg hint, if_neg hint, List.map_nil, List.flatten_nil]

/-! ## Claim theorems -/

/-- C7: profile construction partitions interactions by rating — `good` =
rating ∈ {4,5}, `negative` = rating ∈ {1,2}; rating-3 rows contribute neither
to the profile/scores (dropping them changes nothing) nor to
`previous_interactions`, and `previous_interactions` holds exactly the union
of the good and negative content ids. -/
theorem claim_C7 (clusterer : Clusterer) (cat batchContent : List Content)
    (uInts : List Interaction) :
    (buildUserProfile clusterer cat batchContent uInts =
      buildUserProfile clusterer cat batchContent
        (uInts.filter (fun i => ¬ i.rating = 3))) ∧
    (∀ c : ℤ, c ∈ (buildUserProfile clusterer cat batchContent uInts).1.previous ↔
      (∃ i ∈ uInts, i.content = c ∧ (i.rating = 4 ∨ i.rating = 5)) ∨
      (∃ i ∈ uInts, i.content = c ∧ (i.rating = 1 ∨ i.rating = 2))) := by
  constructor
  · have hg : (uInts.filter (fun i => ¬ i.rating = 3)).filter
        (fun i => i.rating = 4 ∨ i.rating = 5) =
        uInts.filter (fun i => i.rating = 4 ∨ i.rating = 5) := by
      apply filter_subsume
      intro i _ hp
      rw [decide_eq_true_eq] at hp
      rw [decide_eq_true_eq]
      rcases hp with h4 | h5
      · rw [h4]; omega
      · rw [h5]; omega
    have hn : (uInts.filter (fun i => ¬ i.rating = 3)).filter
        (fun i => i.rating = 1 ∨ i.rating = 2) =
        uInts.filter (fun i => i.rating = 1 ∨ i.rating = 2) := by
      apply filter_subsume
      intro i _ hp
      rw [decide_eq_true_eq] at hp
      rw [decide_eq_true_eq]
      rcases hp with h1 | h2
      · rw [h1]; omega
      · rw [h2]; omega
    simp only [buildUserProfile, hg, hn]
  · intro c
    simp only [buildUserProfile, List.mem_append, mem_dedupFirst, List.mem_map,
      List.mem_filter, decide_eq_true_eq]
    constructor
    · rintro (⟨i, ⟨hi, hr⟩, rfl⟩ | ⟨i, ⟨hi, hr⟩, rfl⟩)
      · exact Or.inl ⟨i, hi, rfl, hr⟩
      · exact Or.inr ⟨i, hi, rfl, hr⟩
    · rintro (⟨i, hi, rfl, hr⟩ | ⟨i, hi, rfl, hr⟩)
      · exact Or.inl ⟨i, ⟨hi, hr⟩, rfl⟩
      · exact Or.inr ⟨i, ⟨hi, hr⟩, rfl⟩

unseal Rat.add Rat.mul Rat.inv Rat.sub in
/-- C2 as stated is false: the ranking step does *not* break score ties by
the original candidate insertion order.  With two candidates of equal score,
contents 5 then 3, `heapq.heapify` reorders the (equal-user) tuples by
content id, so content 3 receives rank 1. -/
theorem claim_C2_counterexample :
    ¬ (∀ cands : List Cand, rankStep cands = specTopKStable cands) := by
  intro h
  have := h [⟨7, 5, ⟨1, 1⟩⟩, ⟨7, 3, ⟨1, 1⟩⟩]
  revert this
  decide

/-- C2 amended: the ranking step equals the spec's stable top-K description
applied to the *heapified* candidate list — top `total_recommendations` by
descending score with dense ranks from 1, but ties broken by the list order
left behind by `heapq.heapify`'s `(user_id, content_id, score)` tuple
comparisons, not by insertion order. -/
theorem claim_C2_amended (cands : List Cand) :
    rankStep cands = specTopKStable (pyHeapify candLt candDflt cands) := by
  rw [rankStep, specTopKStable]
  congr 1
  apply sortDescBy_eq_self_of_descChain
  exact descChain_take (descChain_sortDescBy candGe_total _) _

set_option maxRecDepth 10000 in
set_option maxRecDepth 10000 in
set_option maxRecDepth 10000 in
set_option maxRecDepth 10000 in
/-- One unfolding step of the per-cluster contribution list. -/
theorem clusterContribsGo_cons (u : ℤ) (prev : List ℤ) (cat content : List Content)
    (clusters : List ℤ) (acc : List Cand) (lc : ℤ × ℕ) (rest : List (ℤ × ℕ)) :
    clusterContribsGo u prev cat content clusters acc (lc :: rest) =
      (clusterStep u prev cat content clusters acc lc).drop acc.length ::
        clusterContribsGo u prev cat content clusters
          (clusterStep u prev cat content clusters acc lc) rest := rfl

set_option maxRecDepth 8000 in
unseal Rat.add Rat.mul Rat.inv Rat.sub in
/-- Evaluation of the cap-counterexample state, one cluster at a time:
all 51 clusters contribute exactly one candidate each. -/
theorem exProfC1_contribs :
    clusterContribs 9 exProfC1.previous exCatC1 exProfC1.content exProfC1.clusters =
      List.replicate 51 [cExp] := by
  have hv : valueCountsDesc exProfC1.clusters = [((0 : ℤ), 1), ((1 : ℤ), 1), ((2 : ℤ), 1), ((3 : ℤ), 1), ((4 : ℤ), 1), ((5 : ℤ), 1), ((6 : ℤ), 1), ((7 : ℤ), 1), ((8 : ℤ), 1), ((9 : ℤ), 1), ((10 : ℤ), 1), ((11 : ℤ), 1), ((12 : ℤ), 1), ((13 : ℤ), 1), ((14 : ℤ), 1), ((15 : ℤ), 1), ((16 : ℤ), 1), ((17 : ℤ), 1), ((18 : ℤ), 1), ((19 : ℤ), 1), ((20 : ℤ), 1), ((21 : ℤ), 1), ((22 : ℤ), 1), ((23 : ℤ), 1), ((24 : ℤ), 1), ((25 : ℤ), 1), ((26 : ℤ), 1), ((27 : ℤ), 1), ((28 : ℤ), 1), ((29 : ℤ), 1), ((30 : ℤ), 1), ((31 : ℤ), 1), ((32 : ℤ), 1), ((33 : ℤ), 1), ((34 : ℤ), 1), ((35 : ℤ), 1), ((36 : ℤ), 1), ((37 : ℤ), 1), ((38 : ℤ), 1), ((39 : ℤ), 1), ((40 : ℤ), 1), ((41 : ℤ), 1), ((42 : ℤ), 1), ((43 : ℤ), 1), ((44 : ℤ), 1), ((45 : ℤ), 1), ((46 : ℤ), 1), ((47 : ℤ), 1), ((48 : ℤ), 1), ((49 : ℤ), 1), ((50 : ℤ), 1)] := by decide
  have h0 : clusterStep 9 exProfC1.previous exCatC1 exProfC1.content
      exProfC1.clusters [] ((0 : ℤ), 1) = List.replicate 1 cExp := by decide
  have h1 : clusterStep 9 exProfC1.previous exCatC1 exProfC1.content
      exProfC1.clusters (List.replicate 1 cExp) ((1 : ℤ), 1) =
      List.replicate 2 cExp := by decide
  have h2 : clusterStep 9 exProfC1.previous exCatC1 exProfC1.content
      exProfC1.clusters (List.replicate 2 cExp) ((2 : ℤ), 1) =
      List.replicate 3 cExp := by decide
  have h3 : clusterStep 9 exProfC1.previous exCatC1 exProfC1.content
      exProfC1.clusters (List.replicate 3 cExp) ((3 : ℤ), 1) =
      List.replicate 4 cExp := by decide
  have h4 : clusterStep 9 exProfC1.previous exCatC1 exProfC1.content
      exProfC1.clusters (List.replicate 4 cExp) ((4 : ℤ), 1) =
      List.replicate 5 cExp := by decide
  have h5 : clusterStep 9 exProfC1.previous exCatC1 exProfC1.content
      exProfC1.clusters (List.replicate 5 cExp) ((5 : ℤ), 1) =
      List.replicate 6 cExp := by decide
  have h6 : clusterStep 9 exProfC1.previous exCatC1 exProfC1.content
      exProfC1.clusters (List.replicate 6 cExp) ((6 : ℤ), 1) =
      List.replicate 7 cExp := by decide
  have h7 : clusterStep 9 exProfC1.previous exCatC1 exProfC1.content
      exProfC1.clusters (List.replicate 7 cExp) ((7 : ℤ), 1) =
      List.replicate 8 cExp := by decide
  have h8 : clusterStep 9 exProfC1.previous exCatC1 exProfC1.content
      exProfC1.clusters (List.replicate 8 cExp) ((8 : ℤ), 1) =
      List.replicate 9 cExp := by decide
  have h9 : clusterStep 9 exProfC1.previous exCatC1 exProfC1.content
      exProfC1.clusters (List.replicate 9 cExp) ((9 : ℤ), 1) =
      List.replicate 10 cExp := by decide
  have h10 : clusterStep 9 exProfC1.previous exCatC1 exProfC1.content
      exProfC1.clusters (List.replicate 10 cExp) ((10 : ℤ), 1) =
      List.replicate 11 cExp := by decide
  have h11 : clusterStep 9 exProfC1.previous exCatC1 exProfC1.content
      exProfC1.clusters (List.replicate 11 cExp) ((11 : ℤ), 1) =
      List.replicate 12 cExp := by decide
  have h12 : clusterStep 9 exProfC1.previous exCatC1 exProfC1.content
      exProfC1.clusters (List.replicate 12 cExp) ((12 : ℤ), 1) =
      List.replicate 13 cExp := by decide
  have h13 : clusterStep 9 exProfC1.previous exCatC1 exProfC1.content
      exProfC1.clusters (List.replicate 13 cExp) ((13 : ℤ), 1) =
      List.replicate 14 cExp := by decide
  have h14 : clusterStep 9 exProfC1.previous exCatC1 exProfC1.content
      exProfC1.clusters (List.replicate 14 cExp) ((14 : ℤ), 1) =
      List.replicate 15 cExp := by decide
  have h15 : clusterStep 9 exProfC1.previous exCatC1 exProfC1.content
      exProfC1.clusters (List.replicate 15 cExp) ((15 : ℤ), 1) =
      List.replicate 16 cExp := by decide
  have h16 : clusterStep 9 exProfC1.previous exCatC1 exProfC1.content
      exProfC1.clusters (List.replicate 16 cExp) ((16 : ℤ), 1) =
      List.replicate 17 cExp := by decide
  have h17 : clusterStep 9 exProfC1.previous exCatC1 exProfC1.content
      exProfC1.clusters (List.replicate 17 cExp) ((17 : ℤ), 1) =
      List.replicate 18 cExp := by decide
  have h18 : clusterStep 9 exProfC1.previous exCatC1 exProfC1.content
      exProfC1.clusters (List.replicate 18 cExp) ((18 : ℤ), 1) =
      List.replicate 19 cExp := by decide
  have h19 : clusterStep 9 exProfC1.previous exCatC1 exProfC1.content
      exProfC1.clusters (List.replicate 19 cExp) ((19 : ℤ), 1) =
      List.replicate 20 cExp := by decide
  have h20 : clusterStep 9 exProfC1.previous exCatC1 exProfC1.content
      exProfC1.clusters (List.replicate 20 cExp) ((20 : ℤ), 1) =
      List.replicate 21 cExp := by decide
  have h21 : clusterStep 9 exProfC1.previous exCatC1 exProfC1.content
      exProfC1.clusters (List.replicate 21 cExp) ((21 : ℤ), 1) =
      List.replicate 22 cExp := by decide
  have h22 : clusterStep 9 exProfC1.previous exCatC1 exProfC1.content
      exProfC1.clusters (List.replicate 22 cExp) ((22 : ℤ), 1) =
      List.replicate 23 cExp := by decide
  have h23 : clusterStep 9 exProfC1.previous exCatC1 exProfC1.content
      exProfC1.clusters (List.replicate 23 cExp) ((23 : ℤ), 1) =
      List.replicate 24 cExp := by decide
  have h24 : clusterStep 9 exProfC1.previous exCatC1 exProfC1.content
      exProfC1.clusters (List.replicate 24 cExp) ((24 : ℤ), 1) =
      List.replicate 25 cExp := by decide
  have h25 : clusterStep 9 exProfC1.previous exCatC1 exProfC1.content
      exProfC1.clusters (List.replicate 25 cExp) ((25 : ℤ), 1) =
      List.replicate 26 cExp := by decide
  have h26 : clusterStep 9 exProfC1.previous exCatC1 exProfC1.content
      exProfC1.clusters (List.replicate 26 cExp) ((26 : ℤ), 1) =
      List.replicate 27 cExp := by decide
  have h27 : clusterStep 9 exProfC1.previous exCatC1 exProfC1.content
      exProfC1.clusters (List.replicate 27 cExp) ((27 : ℤ), 1) =
      List.replicate 28 cExp := by decide
  have h28 : clusterStep 9 exProfC1.previous exCatC1 exProfC1.content
      exProfC1.clusters (List.replicate 28 cExp) ((28 : ℤ), 1) =
      List.replicate 29 cExp := by decide
  have h29 : clusterStep 9 exProfC1.previous exCatC1 exProfC1.content
      exProfC1.clusters (List.replicate 29 cExp) ((29 : ℤ), 1) =
      List.replicate 30 cExp := by decide
  have h30 : clusterStep 9 exProfC1.previous exCatC1 exProfC1.content
      exProfC1.clusters (List.replicate 30 cExp) ((30 : ℤ), 1) =
      List.replicate 31 cExp := by decide
  have h31 : clusterStep 9 exProfC1.previous exCatC1 exProfC1.content
      exProfC1.clusters (List.replicate 31 cExp) ((31 : ℤ), 1) =
      List.replicate 32 cExp := by decide
  have h32 : clusterStep 9 exProfC1.previous exCatC1 exProfC1.content
      exProfC1.clusters (List.replicate 32 cExp) ((32 : ℤ), 1) =
      List.replicate 33 cExp := by decide
  have h33 : clusterStep 9 exProfC1.previous exCatC1 exProfC1.content
      exProfC1.clusters (List.replicate 33 cExp) ((33 : ℤ), 1) =
      List.replicate 34 cExp := by decide
  have h34 : clusterStep 9 exProfC1.previous exCatC1 exProfC1.content
      exProfC1.clusters (List.replicate 34 cExp) ((34 : ℤ), 1) =
      List.replicate 35 cExp := by decide
  have h35 : clusterStep 9 exProfC1.previous exCatC1 exProfC1.content
      exProfC1.clusters (List.replicate 35 cExp) ((35 : ℤ), 1) =
      List.replicate 36 cExp := by decide
  have h36 : clusterStep 9 exProfC1.previous exCatC1 exProfC1.content
      exProfC1.clusters (List.replicate 36 cExp) ((36 : ℤ), 1) =
      List.replicate 37 cExp := by decide
  have h37 : clusterStep 9 exProfC1.previous exCatC1 exProfC1.content
      exProfC1.clusters (List.replicate 37 cExp) ((37 : ℤ), 1) =
      List.replicate 38 cExp := by decide
  have h38 : clusterStep 9 exProfC1.previous exCatC1 exProfC1.content
      exProfC1.clusters (List.replicate 38 cExp) ((38 : ℤ), 1) =
      List.replicate 39 cExp := by decide
  have h39 : clusterStep 9 exProfC1.previous exCatC1 exProfC1.content
      exProfC1.clusters (List.replicate 39 cExp) ((39 : ℤ), 1) =
      List.replicate 40 cExp := by decide
  have h40 : clusterStep 9 exProfC1.previous exCatC1 exProfC1.content
      exProfC1.clusters (List.replicate 40 cExp) ((40 : ℤ), 1) =
      List.replicate 41 cExp := by decide
  have h41 : clusterStep 9 exProfC1.previous exCatC1 exProfC1.content
      exProfC1.clusters (List.replicate 41 cExp) ((41 : ℤ), 1) =
      List.replicate 42 cExp := by decide
  have h42 : clusterStep 9 exProfC1.previous exCatC1 exProfC1.content
      exProfC1.clusters (List.replicate 42 cExp) ((42 : ℤ), 1) =
      List.replicate 43 cExp := by decide
  have h43 : clusterStep 9 exProfC1.previous exCatC1 exProfC1.content
      exProfC1.clusters (List.replicate 43 cExp) ((43 : ℤ), 1) =
      List.replicate 44 cExp := by decide
  have h44 : clusterStep 9 exProfC1.previous exCatC1 exProfC1.content
      exProfC1.clusters (List.replicate 44 cExp) ((44 : ℤ), 1) =
      List.replicate 45 cExp := by decide
  have h45 : clusterStep 9 exProfC1.previous exCatC1 exProfC1.content
      exProfC1.clusters (List.replicate 45 cExp) ((45 : ℤ), 1) =
      List.replicate 46 cExp := by decide
  have h46 : clusterStep 9 exProfC1.previous exCatC1 exProfC1.content
      exProfC1.clusters (List.replicate 46 cExp) ((46 : ℤ), 1) =
      List.replicate 47 cExp := by decide
  have h47 : clusterStep 9 exProfC1.previous exCatC1 exProfC1.content
      exProfC1.clusters (List.replicate 47 cExp) ((47 : ℤ), 1) =
      List.replicate 48 cExp := by decide
  have h48 : clusterStep 9 exProfC1.previous exCatC1 exProfC1.content
      exProfC1.clusters (List.replicate 48 cExp) ((48 : ℤ), 1) =
      List.replicate 49 cExp := by decide
  have h49 : clusterStep 9 exProfC1.previous exCatC1 exProfC1.content
      exProfC1.clusters (List.replicate 49 cExp) ((49 : ℤ), 1) =
      List.replicate 50 cExp := by decide
  have h50 : clusterStep 9 exProfC1.previous exCatC1 exProfC1.content
      exProfC1.clusters (List.replicate 50 cExp) ((50 : ℤ), 1) =
      List.replicate 51 cExp := by decide
  rw [clusterContribs, hv, clusterContribsGo_cons, h0, clusterContribsGo_cons, h1, clusterContribsGo_cons, h2, clusterContribsGo_cons, h3, clusterContribsGo_cons, h4, clusterContribsGo_cons, h5, clusterContribsGo_cons, h6, clusterContribsGo_cons, h7, clusterContribsGo_cons, h8, clusterContribsGo_cons, h9, clusterContribsGo_cons, h10, clusterContribsGo_cons, h11, clusterContribsGo_cons, h12, clusterContribsGo_cons, h13, clusterContribsGo_cons, h14, clusterContribsGo_cons, h15, clusterContribsGo_cons, h16, clusterContribsGo_cons, h17, clusterContribsGo_cons, h18, clusterContribsGo_cons, h19, clusterContribsGo_cons, h20, clusterContribsGo_cons, h21, clusterContribsGo_cons, h22, clusterContribsGo_cons, h23, clusterContribsGo_cons, h24, clusterContribsGo_cons, h25, clusterContribsGo_cons, h26, clusterContribsGo_cons, h27, clusterContribsGo_cons, h28, clusterContribsGo_cons, h29, clusterContribsGo_cons, h30, clusterContribsGo_cons, h31, clusterContribsGo_cons, h32, clusterContribsGo_cons, h33, clusterContribsGo_cons, h34, clusterContribsGo_cons, h35, clusterContribsGo_cons, h36, clusterContribsGo_cons, h37, clusterContribsGo_cons, h38, clusterContribsGo_cons, h39, clusterContribsGo_cons, h40, clusterContribsGo_cons, h41, clusterContribsGo_cons, h42, clusterContribsGo_cons, h43, clusterContribsGo_cons, h44, clusterContribsGo_cons, h45, clusterContribsGo_cons, h46, clusterContribsGo_cons, h47, clusterContribsGo_cons, h48, clusterContribsGo_cons, h49, clusterContribsGo_cons, h50]
  decide

set_option maxRecDepth 8000 in
unseal Rat.add Rat.mul Rat.inv Rat.sub in
/-- C1 as stated is false: reaching the `total_recommendations` cap does not
stop emission for all later clusters.  The neighbour loop appends *before*
testing the cap, so each later cluster still contributes its first
non-excluded neighbour.  Concretely: 51 singleton clusters each allocated
one slot; the cap of 50 is reached in the 50th cluster (index 49), yet the
51st cluster (index 50) still contributes a candidate. -/
theorem claim_C1_counterexample :
    ¬ (∀ (u : ℤ) (prev : List ℤ) (cat content : List Content) (clusters : List ℤ)
        (i j : ℕ), 5 ≤ distinctIdCount content → i < j →
        totalRecommendations ≤
          (((clusterContribs u prev cat content clusters).take (i + 1)).map
            List.length).sum →
        (clusterContribs u prev cat content clusters).getD j [] = []) := by
  intro h
  have hc := exProfC1_contribs
  have h5 : 5 ≤ distinctIdCount exProfC1.content := by decide
  have hcontr := h 9 exProfC1.previous exCatC1 exProfC1.content exProfC1.clusters
    49 50 h5 (by omega) (by rw [hc]; decide)
  rw [hc] at hcontr
  revert hcontr
  decide

/-- C1 amended: once the accumulated candidate count of the clusters already
processed has reached `total_recommendations`, a later cluster contributes at
most one candidate (its first non-excluded neighbour) — rather than none, as
the spec claims. -/
theorem claim_C1_amended (u : ℤ) (prev : List ℤ) (cat content : List Content)
    (clusters : List ℤ) (j : ℕ)
    (hcap : totalRecommendations ≤
      (((clusterContribs u prev cat content clusters).take j).map List.length).sum) :
    ((clusterContribs u prev cat content clusters).getD j []).length ≤ 1 := by
  rw [clusterContribs] at hcap ⊢
  apply clusterContribsGo_cap
  simpa using hcap

set_option maxRecDepth 8000 in
unseal Rat.add Rat.mul Rat.inv Rat.sub in
/-- Witness for `claim_C1_amended` at the 51-cluster state, `j = 50`. -/
theorem claim_C1_amended_witness :
    totalRecommendations ≤
      (((clusterContribs 9 exProfC1.previous exCatC1 exProfC1.content
        exProfC1.clusters).take 50).map List.length).sum ∧
    ((clusterContribs 9 exProfC1.previous exCatC1 exProfC1.content
      exProfC1.clusters).getD 50 []).length ≤ 1 := by
  have hcap : totalRecommendations ≤
      (((clusterContribs 9 exProfC1.previous exCatC1 exProfC1.content
        exProfC1.clusters).take 50).map List.length).sum := by
    rw [exProfC1_contribs]
    decide
  exact ⟨hcap, claim_C1_amended 9 exProfC1.previous exCatC1 exProfC1.content
    exProfC1.clusters 50 hcap⟩

set_option maxRecDepth 10000 in
unseal Rat.add Rat.mul Rat.inv Rat.sub in
/-- C3 against the code (Example A of the spec): the few-interest user U1
does *not* get the single row `(U1, 104, 1)` — the unconditional supplement
loop re-walks the fallback pool without deduplicating against the rows the
few-interest path already appended, so item 104 is emitted twice, at ranks 1
and 2. -/
theorem claim_C3_code_emits_duplicate :
    getRecommendations exClusterer exCatA exIntsA [] =
      [⟨1, 104, 1, "content_based"⟩, ⟨1, 104, 2, "content_based"⟩] := by decide

/-- C4: for every user, the output rows carry at most
`total_recommendations = 50` entries, ranked contiguously `1..count`
(`List.range' 1 n` is `[1, ..., n]`, duplicate-free by construction). -/
theorem claim_C4 (clusterer : Clusterer) (b : ℕ) (hb : 1 ≤ b)
    (cat : List Content) (ints : List Interaction) (usersTable : List ℤ) (u : ℤ) :
    ((getRecommendationsWith clusterer b cat ints usersTable).filter
      (fun r => r.user = u)).length ≤ totalRecommendations ∧
    totalRecommendations = 50 ∧
    ((getRecommendationsWith clusterer b cat ints usersTable).filter
      (fun r => r.user = u)).map (·.rank) =
      List.range' 1 ((getRecommendationsWith clusterer b cat ints usersTable).filter
        (fun r => r.user = u)).length := by
  rw [getRecommendationsWith_filter clusterer b hb]
  by_cases hint : u ∈ ints.map (·.user)
  · rw [if_pos hint, userRows]
    exact ⟨length_rankStep _, rfl, map_rank_rankStep _⟩
  · rw [if_neg hint]
    exact ⟨Nat.zero_le _, rfl, rfl⟩

/-- Witness for `claim_C4` on the two-user example with batch size 1. -/
theorem claim_C4_witness :
    1 ≤ 1 ∧
    (((getRecommendationsWith exClusterer 1 exCatB exIntsB []).filter
      (fun r => r.user = 2)).length ≤ totalRecommendations ∧
    totalRecommendations = 50 ∧
    ((getRecommendationsWith exClusterer 1 exCatB exIntsB []).filter
      (fun r => r.user = 2)).map (·.rank) =
      List.range' 1 ((getRecommendationsWith exClusterer 1 exCatB exIntsB []).filter
        (fun r => r.user = 2)).length) :=
  ⟨le_rfl, claim_C4 exClusterer 1 le_rfl exCatB exIntsB [] 2⟩

/-- C5: no content id emitted in a user's output rows belongs to that user's
`previous_interactions` — all three emission paths filter against it, and
the ranking step only selects a subset of the emitted candidates. -/
theorem claim_C5 (cat : List Content) (u : ℤ) (p : Profile)
    (scores : List SqrtRat) (row : Row) (hrow : row ∈ userRows cat u p scores) :
    row.content ∉ p.previous :=
  (mem_userRows hrow).2.1

unseal Rat.add Rat.mul Rat.inv Rat.sub in
/-- Witness for `claim_C5`: a concrete emitted row avoids the exclusion set. -/
theorem claim_C5_witness :
    (⟨2, 20, 1, "content_based"⟩ : Row) ∈
      userRows exCatB 2 ⟨[⟨10, [1, 0]⟩], [0], [10]⟩ [⟨1, 1⟩, ⟨0, 0⟩] ∧
    ((⟨2, 20, 1, "content_based"⟩ : Row).content ∉
      (⟨[⟨10, [1, 0]⟩], [0], [10]⟩ : Profile).previous) := by
  have hrow : (⟨2, 20, 1, "content_based"⟩ : Row) ∈
      userRows exCatB 2 ⟨[⟨10, [1, 0]⟩], [0], [10]⟩ [⟨1, 1⟩, ⟨0, 0⟩] := by decide
  exact ⟨hrow, claim_C5 exCatB 2 _ _ _ hrow⟩

unseal Rat.add Rat.mul Rat.inv Rat.sub in
/-- C6: for a non-noise cluster of proportion `p = count / total`, the
cluster step queries the neighbour index for
`k = min (max 1 (round (50 * p))) catalog_size` neighbours of the cluster
centroid, and the query always returns exactly `min k catalog_size` indices
(clamped, never failing); with `total_recommendations = 10` the spec's
Example B proportions give slot counts 7 and 3. -/
theorem claim_C6 (u : ℤ) (prev : List ℤ) (cat content : List Content)
    (clusters : List ℤ) (acc : List Cand) (label : ℤ) (cnt : ℕ)
    (hlabel : ¬ label = -1) :
    (clusterStep u prev cat content clusters acc (label, cnt) =
      clusterNeighborLoop u prev cat (meanVec (clusterVecs content clusters label)) acc
        (kneighborsIdx (cat.map (·.vec)) (meanVec (clusterVecs content clusters label))
          (min (slotCount totalRecommendations
            ((cnt : ℚ) / (clusters.length : ℚ))).toNat cat.length))) ∧
    (kneighborsIdx (cat.map (·.vec)) (meanVec (clusterVecs content clusters label))
        (min (slotCount totalRecommendations
          ((cnt : ℚ) / (clusters.length : ℚ))).toNat cat.length)).length =
      min (slotCount totalRecommendations
        ((cnt : ℚ) / (clusters.length : ℚ))).toNat cat.length ∧
    slotCount 10 (7 / 10 : ℚ) = 7 ∧ slotCount 10 (3 / 10 : ℚ) = 3 := by
  refine ⟨?_, ?_, by decide, by decide⟩
  · simp only [clusterStep, hlabel, if_false]
  · rw [length_kneighborsIdx, List.length_map]
    rw [min_assoc, min_self]

unseal Rat.add Rat.mul Rat.inv Rat.sub in
/-- Witness for `claim_C6` on a two-cluster profile state. -/
theorem claim_C6_witness :
    (¬ (0 : ℤ) = -1) ∧
    ((clusterStep 1 [] exCatB exCatB [0, 0, 0, 1, 1] [] ((0 : ℤ), 3) =
      clusterNeighborLoop 1 [] exCatB (meanVec (clusterVecs exCatB [0, 0, 0, 1, 1] 0)) []
        (kneighborsIdx (exCatB.map (·.vec)) (meanVec (clusterVecs exCatB [0, 0, 0, 1, 1] 0))
          (min (slotCount totalRecommendations
            ((3 : ℚ) / (([0, 0, 0, 1, 1] : List ℤ).length : ℚ))).toNat exCatB.length))) ∧
    (kneighborsIdx (exCatB.map (·.vec)) (meanVec (clusterVecs exCatB [0, 0, 0, 1, 1] 0))
        (min (slotCount totalRecommendations
          ((3 : ℚ) / (([0, 0, 0, 1, 1] : List ℤ).length : ℚ))).toNat exCatB.length)).length =
      min (slotCount totalRecommendations
        ((3 : ℚ) / (([0, 0, 0, 1, 1] : List ℤ).length : ℚ))).toNat exCatB.length ∧
    slotCount 10 (7 / 10 : ℚ) = 7 ∧ slotCount 10 (3 / 10 : ℚ) = 3) :=
  ⟨by decide, claim_C6 1 [] exCatB exCatB [0, 0, 0, 1, 1] [] 0 3 (by decide)⟩

unseal Rat.add Rat.mul Rat.inv Rat.sub in
/-- C8 as stated is false in its "hence the final output table is identical"
part: with users first appearing in the order 2, 1, batch size 1 keeps that
order while batch size 2 lets the per-batch `groupby` sort them, so the two
output tables list the same per-user rows in different row order. -/
theorem claim_C8_counterexample :
    getRecommendationsWith exClusterer 1 exCatB exIntsB [] ≠
      getRecommendationsWith exClusterer 2 exCatB exIntsB [] := by decide

/-- C8 amended: the batch size (≥ 1) does not affect any user's stored
profile, stored score row, or output rows — the tables can differ only in
the order of different users' row blocks. -/
theorem claim_C8_amended (clusterer : Clusterer) (b1 b2 : ℕ) (hb1 : 1 ≤ b1)
    (hb2 : 1 ≤ b2) (cat : List Content) (ints : List Interaction)
    (ut1 ut2 : List ℤ) (u : ℤ) :
    ((generateUserProfiles clusterer b1 cat ints).1.filter (fun e => e.1 = u) =
      (generateUserProfiles clusterer b2 cat ints).1.filter (fun e => e.1 = u)) ∧
    ((generateUserProfiles clusterer b1 cat ints).2.filter (fun e => e.1 = u) =
      (generateUserProfiles clusterer b2 cat ints).2.filter (fun e => e.1 = u)) ∧
    ((getRecommendationsWith clusterer b1 cat ints ut1).filter (fun r => r.user = u) =
      (getRecommendationsWith clusterer b2 cat ints ut2).filter (fun r => r.user = u)) := by
  refine ⟨?_, ?_, ?_⟩
  · rw [generateUserProfiles_filter clusterer b1 hb1,
      generateUserProfiles_filter clusterer b2 hb2]
  · rw [generateUserScores_filter clusterer b1 hb1,
      generateUserScores_filter clusterer b2 hb2]
  · rw [getRecommendationsWith_filter clusterer b1 hb1,
      getRecommendationsWith_filter clusterer b2 hb2]

/-- Witness for `claim_C8_amended` at batch sizes 1 and 2 on the two-user
example. -/
theorem claim_C8_amended_witness :
    1 ≤ 1 ∧ 1 ≤ 2 ∧
    (((generateUserProfiles exClusterer 1 exCatB exIntsB).1.filter (fun e => e.1 = 2) =
      (generateUserProfiles exClusterer 2 exCatB exIntsB).1.filter (fun e => e.1 = 2)) ∧
    ((generateUserProfiles exClusterer 1 exCatB exIntsB).2.filter (fun e => e.1 = 2) =
      (generateUserProfiles exClusterer 2 exCatB exIntsB).2.filter (fun e => e.1 = 2)) ∧
    ((getRecommendationsWith exClusterer 1 exCatB exIntsB []).filter (fun r => r.user = 2) =
      (getRecommendationsWith exClusterer 2 exCatB exIntsB []).filter (fun r => r.user = 2))) :=
  ⟨le_rfl, by omega, claim_C8_amended exClusterer 1 2 le_rfl (by omega) exCatB exIntsB [] [] 2⟩

/-- C9: a user with interaction rows but no good (4–5) ratings is not an
error: the good-content row set is empty, the positive-interest vector falls
back to the zero vector of the catalog dimensionality, the similarity row is
computed against that zero vector, the user still receives a stored profile,
and the user's output rows are still produced by the ranking pipeline. -/
theorem claim_C9 (clusterer : Clusterer) (b : ℕ) (hb : 1 ≤ b)
    (cat : List Content) (ints : List Interaction) (usersTable : List ℤ) (u : ℤ)
    (hu : u ∈ ints.map (·.user))
    (hng : ∀ i ∈ ints, i.user = u → ¬(i.rating = 4 ∨ i.rating = 5)) :
    (buildUserProfile clusterer cat cat (ints.filter (fun i => i.user = u))).1.content = [] ∧
    userVector (catDim cat) [] = zeroVec (catDim cat) ∧
    (buildUserProfile clusterer cat cat (ints.filter (fun i => i.user = u))).2 =
      cat.map (fun c => cosineSim (zeroVec (catDim cat)) c.vec) ∧
    (generateUserProfiles clusterer b cat ints).1.filter (fun e => e.1 = u) =
      [(u, (buildUserProfile clusterer cat cat (ints.filter (fun i => i.user = u))).1)] ∧
    (getRecommendationsWith clusterer b cat ints usersTable).filter (fun r => r.user = u) =
      userRows cat u
        (buildUserProfile clusterer cat cat (ints.filter (fun i => i.user = u))).1
        (buildUserProfile clusterer cat cat (ints.filter (fun i => i.user = u))).2 := by
  have hgi : (ints.filter (fun i => i.user = u)).filter
      (fun i => i.rating = 4 ∨ i.rating = 5) = [] := by
    rw [List.filter_eq_nil]
    intro i hi
    have hiu : i.user = u := by
      have := (List.mem_filter.1 hi).2
      rwa [decide_eq_true_eq] at this
    have := hng i (List.mem_of_mem_filter hi) hiu
    simpa using this
  have hgc : cat.filter (fun c =>
      c.id ∈ ((ints.filter (fun i => i.user = u)).filter
        (fun i => i.rating = 4 ∨ i.rating = 5)).map (·.content)) = [] := by
    rw [hgi]
    simp
  refine ⟨?_, rfl, ?_, ?_, ?_⟩
  · simp only [buildUserProfile, hgc]
  · simp only [buildUserProfile, hgc, List.map_nil]
    rfl
  · rw [generateUserProfiles_filter clusterer b hb, if_pos hu]
  · rw [getRecommendationsWith_filter clusterer b hb, if_pos hu]

unseal Rat.add Rat.mul Rat.inv Rat.sub in
/-- Witness for `claim_C9`: the single user rated the only item 2. -/
theorem claim_C9_witness :
    1 ≤ 1 ∧ (1 : ℤ) ∈ exIntsE.map (·.user) ∧
    (∀ i ∈ exIntsE, i.user = 1 → ¬(i.rating = 4 ∨ i.rating = 5)) ∧
    ((buildUserProfile exClusterer exCatD exCatD
        (exIntsE.filter (fun i => i.user = 1))).1.content = [] ∧
    userVector (catDim exCatD) [] = zeroVec (catDim exCatD) ∧
    (buildUserProfile exClusterer exCatD exCatD
        (exIntsE.filter (fun i => i.user = 1))).2 =
      exCatD.map (fun c => cosineSim (zeroVec (catDim exCatD)) c.vec) ∧
    (generateUserProfiles exClusterer 1 exCatD exIntsE).1.filter (fun e => e.1 = 1) =
      [(1, (buildUserProfile exClusterer exCatD exCatD
        (exIntsE.filter (fun i => i.user = 1))).1)] ∧
    (getRecommendationsWith exClusterer 1 exCatD exIntsE []).filter (fun r => r.user = 1) =
      userRows exCatD 1
        (buildUserProfile exClusterer exCatD exCatD
          (exIntsE.filter (fun i => i.user = 1))).1
        (buildUserProfile exClusterer exCatD exCatD
          (exIntsE.filter (fun i => i.user = 1))).2) :=
  ⟨le_rfl, by decide, by decide,
    claim_C9 exClusterer 1 le_rfl exCatD exIntsE [] 1 (by decide) (by decide)⟩

unseal Rat.add Rat.mul Rat.inv Rat.sub in
/-- C10 as stated is false in its "exactly" part: a user whose every
candidate is excluded by `previous_interactions` occurs in the interaction
log but produces zero output rows, so the output's user set can be a proper
subset of the log's. -/
theorem claim_C10_counterexample :
    ¬ (∀ u : ℤ, (∃ row ∈ getRecommendations exClusterer exCatD exIntsD [7],
        row.user = u) ↔ u ∈ exIntsD.map (·.user)) := by
  intro h
  have := (h 1).2 (by decide)
  revert this
  decide

/-- C10 amended: every output row's user id occurs in the interaction log
(the inclusion can be strict); the users table contributes nothing (any two
users tables give identical output); and a user id absent from the log gets
neither a profile nor output rows. -/
theorem claim_C10_amended (clusterer : Clusterer) (b : ℕ) (hb : 1 ≤ b)
    (cat : List Content) (ints : List Interaction) (ut ut2 : List ℤ) (u : ℤ) :
    (∀ row ∈ getRecommendationsWith clusterer b cat ints ut,
      row.user ∈ ints.map (·.user)) ∧
    (getRecommendationsWith clusterer b cat ints ut =
      getRecommendationsWith clusterer b cat ints ut2) ∧
    (u ∉ ints.map (·.user) →
      (generateUserProfiles clusterer b cat ints).1.filter (fun e => e.1 = u) = [] ∧
      (getRecommendationsWith clusterer b cat ints ut).filter (fun r => r.user = u) = []) := by
  refine ⟨?_, rfl, ?_⟩
  · intro row hrow
    rw [getRecommendationsWith, generateRecommendations] at hrow
    rw [List.mem_flatten] at hrow
    obtain ⟨l, hl, hrl⟩ := hrow
    rw [List.mem_map] at hl
    obtain ⟨up, hup, rfl⟩ := hl
    rw [(mem_userRows hrl).1]
    exact generateUserProfiles_users_subset clusterer b cat ints up hup
  · intro hnot
    constructor
    · rw [generateUserProfiles_filter clusterer b hb, if_neg hnot]
    · rw [getRecommendationsWith_filter clusterer b hb, if_neg hnot]

unseal Rat.add Rat.mul Rat.inv Rat.sub in
/-- Witness for `claim_C10_amended` with a users-table-only id 7. -/
theorem claim_C10_amended_witness :
    1 ≤ 1 ∧ ((7 : ℤ) ∉ exIntsD.map (·.user)) ∧
    ((∀ row ∈ getRecommendationsWith exClusterer 1 exCatD exIntsD [7],
      row.user ∈ exIntsD.map (·.user)) ∧
    (getRecommendationsWith exClusterer 1 exCatD exIntsD [7] =
      getRecommendationsWith exClusterer 1 exCatD exIntsD [8]) ∧
    ((7 : ℤ) ∉ exIntsD.map (·.user) →
      (generateUserProfiles exClusterer 1 exCatD exIntsD).1.filter (fun e => e.1 = 7) = [] ∧
      (getRecommendationsWith exClusterer 1 exCatD exIntsD [7]).filter
        (fun r => r.user = 7) = [])) :=
  ⟨le_rfl, by decide,
    claim_C10_amended exClusterer 1 le_rfl exCatD exIntsD [7] [8] 7⟩
